import Mathlib

/-!
# cflocal: staging of applications in containers

A shallow embedding of `local/stager.go` (the staging engine, namespace `Local`)
and of `cf/cmd/stage.go` (the `stage` command, namespace `Cmd`), followed by the
properties proved about them.

Conventions of the embedding.

* A Go `error` is an `Option GoError`: `none` is `nil`.
* A call that returns `(value, error)` is an `Except GoError value`.
* The container engine, the filesystem and the other collaborators are records
  of functions; their calls are written to a log in program order, so that
  "is invoked exactly once" is a statement about the log.
* A function with named results and deferred calls is run on a `Frame`: a
  `return` statement first stores its operands in the named results and then
  runs the deferred calls, last registered first.
-/

namespace Cflocal

/-- A Go error value. `EOF` is the sentinel `io.EOF`, `errorf` an error made by
`fmt.Errorf`, `failure` an error handed back by a collaborator. -/
inductive GoError where
  | EOF
  | errorf (msg : String)
  | failure (msg : String)
  deriving DecidableEq, Repr

/-! ## Library functions used by both packages -/

/-- Go's `strings.Join`. -/
def stringsJoin : List String → String → String
  | [], _ => ""
  | [a], _ => a
  | a :: b :: rest, sep => a ++ sep ++ stringsJoin (b :: rest) sep

/-- The verb `%t` of `fmt.Sprintf`. -/
def fmtBool (b : Bool) : String := if b then "true" else "false"

/-- A lower-case hexadecimal digit. -/
def hexDigit (n : Nat) : Char :=
  if n < 10 then Char.ofNat (48 + n) else Char.ofNat (87 + n)

namespace Local

/-! ## The container engine -/

/-- One call of `decoder.Decode(&stream)` on the image-build response: either a
value was decoded into `struct{ Error string }`, or the call returned an error. -/
inductive Decoded where
  | message (Error : String)
  | fails (err : GoError)
  deriving DecidableEq, Repr

/-- A `json.Decoder` over a response body: the outcomes of the calls of `Decode`
that are still to come. Once they are used up every call returns `io.EOF`. -/
abbrev Decoder := List Decoded

/-- Options of `types.ImageBuildOptions` set by `buildDockerfile`. -/
structure ImageBuildOptions where
  Tags : List String
  SuppressOutput : Bool
  PullParent : Bool
  Remove : Bool
  ForceRemove : Bool
  deriving DecidableEq, Repr

/-- The fields of `container.Config` set by `Stage` and `Download`. -/
structure ContainerConfig where
  Hostname : String := ""
  User : String := ""
  Env : List String := []
  Image : String := ""
  WorkingDir : String := ""
  Entrypoint : List String := []
  deriving DecidableEq, Repr

/-- An `io.ReadCloser` that `Stage` or `Download` handles.
`archive n` is the raw archive returned by `CopyFromContainer`;
`splitReadCloser r c` reads from the reader `r` and closes `c`;
`closeWrapper rc id` is `rc` with the removal of container `id` run after its close. -/
inductive ReadCloser where
  | archive (ref : Nat)
  | splitReadCloser (reader : Nat) (closer : ReadCloser)
  | closeWrapper (rc : ReadCloser) (container : String)
  deriving DecidableEq, Repr

/-- The result type `Stream` of `Stage` and `Download`: a reader and its length.
`Stream{}` is `{}`, with a nil `ReadCloser` and size 0. -/
structure Stream where
  ReadCloser : Option ReadCloser := none
  Size : Int := 0
  deriving DecidableEq, Repr

/-- The methods of `docker.Client` the stager calls, as functions of their
arguments. -/
structure Docker where
  /-- Called with the Dockerfile archive and the options: the decoder over the response body. -/
  ImageBuild : String → ImageBuildOptions → Except GoError Decoder
  /-- Called with the configuration and the container name: the new container's ID. -/
  ContainerCreate : ContainerConfig → String → Except GoError String
  /-- Called with the container, the destination path and the archive (`config.AppTar`). -/
  CopyToContainer : String → String → Nat → Option GoError
  ContainerStart : String → Option GoError
  /-- The log stream of the container. -/
  ContainerLogs : String → Except GoError Nat
  /-- The exit status of the container. -/
  ContainerWait : String → Except GoError Int
  /-- Called with the container and a path: the archive and its `Stat.Size`. -/
  CopyFromContainer : String → String → Except GoError (Nat × Int)

/-- The receiver of `Stage`, `Download` and `buildDockerfile`. The writer `Logs`
only receives the copied container log and `ExitChan` is read by the
cancellation watcher alone: the embedding covers the runs in which nothing is
delivered on `ExitChan`, so neither is a field here. -/
structure Stager where
  DiegoVersion : String
  GoVersion : String
  StackVersion : String
  UpdateRootFS : Bool
  Docker : Docker

/-- Code of the repository used by the stager that is outside `local/stager.go`,
taken as parameters. -/
structure Utils where
  /-- Executing the template made from the constant `dockerfile` on the stager's
  versions and `UpdateRootFS`: the rendered text. -/
  dockerfile : String → String → String → Bool → Except GoError String
  /-- The function `utils.TarFile` on a name, the contents and the mode: the archive. -/
  TarFile : String → String → Nat → Except GoError String
  /-- The function `utils.FileFromTar` on an entry name and an archive: a reader of the entry. -/
  FileFromTar : String → Nat → Except GoError Nat

/-- What the stager did to the outside, in program order. -/
inductive Event where
  | imageBuild (dockerfileTar : String) (options : ImageBuildOptions)
  | bodyClose
  | containerCreate (name : String) (config : ContainerConfig)
  | copyToContainer (id path : String) (content : Nat)
  | containerStart (id : String)
  | containerLogs (id : String)
  | logsClose (logs : Nat)
  /-- The goroutine `utils.CopyStream(s.Logs, logs, prefix)` was started. -/
  | copyStream (logs : Nat) (lineHead : String)
  | containerWait (id : String)
  | copyFromContainer (id path : String)
  /-- A call of `cont.RemoveAfterCopy(rc)`, with the value `*rc` held when it ran. -/
  | removeAfterCopy (id : String) (seen : Option ReadCloser)
  /-- The engine was asked to remove the container. -/
  | containerRemove (id : String)
  deriving DecidableEq, Repr

/-! ## `buildDockerfile` -/

/-- The result of the decoding loop: the returned error and the decoder as the
loop left it (the messages it did not read). -/
structure Decoding where
  err : Option GoError
  unread : Decoder
  deriving DecidableEq, Repr

/-- The loop `for { ... decoder.Decode(&stream) ... }` of `buildDockerfile`. -/
def decodeLoop : Decoder → Decoding
  | [] => ⟨none, []⟩
  | .fails err :: rest => if err = GoError.EOF then ⟨none, rest⟩ else ⟨some err, rest⟩
  | .message Error :: rest =>
      if Error ≠ "" then ⟨some (.errorf ("build failure: " ++ Error)), rest⟩
      else decodeLoop rest

/-- What a call of `buildDockerfile` yields: the error, the engine calls made,
and the part of the response the loop did not read. -/
structure Build where
  err : Option GoError
  log : List Event
  unread : Decoder

/-- The method `(*Stager).buildDockerfile`. -/
def Stager.buildDockerfile (u : Utils) (s : Stager) : Build :=
  match u.dockerfile s.DiegoVersion s.GoVersion s.StackVersion s.UpdateRootFS with
  | .error err => ⟨some err, [], []⟩
  | .ok dockerfileBuf =>
    match u.TarFile "Dockerfile" dockerfileBuf 0o644 with
    | .error err => ⟨some err, [], []⟩
    | .ok dockerfileTar =>
      let options : ImageBuildOptions :=
        { Tags := ["cflocal"], SuppressOutput := true, PullParent := s.UpdateRootFS,
          Remove := true, ForceRemove := true }
      match s.Docker.ImageBuild dockerfileTar options with
      | .error err => ⟨some err, [.imageBuild dockerfileTar options], []⟩
      | .ok response =>
        let r := decodeLoop response
        ⟨r.err, [.imageBuild dockerfileTar options, .bodyClose], r.unread⟩

/-- Every outcome in `pre` is a decoded message whose `Error` is empty. -/
def AllQuiet (pre : Decoder) : Prop := ∀ x ∈ pre, x = Decoded.message ""

/-! ## `encoding/json` on the values the stager marshals -/

/-- How `encoding/json` writes one character of a string: the quote and the
backslash get a backslash, newline, carriage return and tab their letter, the
other control characters and `<`, `>`, `&` the form `\u00XX`, the separators
U+2028 and U+2029 the form `\u202X`; every other character stands for itself. -/
def jsonEscape (c : Char) : String :=
  let n := c.toNat
  let bs := Char.ofNat 92
  if n = 34 ∨ n = 92 then String.mk [bs, c]
  else if n = 10 then String.mk [bs, Char.ofNat 110]
  else if n = 13 then String.mk [bs, Char.ofNat 114]
  else if n = 9 then String.mk [bs, Char.ofNat 116]
  else if n < 32 ∨ n = 60 ∨ n = 62 ∨ n = 38 then
    String.mk [bs, Char.ofNat 117, Char.ofNat 48, Char.ofNat 48, hexDigit (n / 16), hexDigit (n % 16)]
  else if n = 0x2028 ∨ n = 0x2029 then
    String.mk [bs, Char.ofNat 117, Char.ofNat 50, Char.ofNat 48, Char.ofNat 50, hexDigit (n % 16)]
  else String.singleton c

/-- A Go string as a JSON string. -/
def jsonString (s : String) : String :=
  String.mk ([Char.ofNat 34] ++ (s.toList.map fun c => (jsonEscape c).toList).flatten ++ [Char.ofNat 34])

/-- A JSON array of strings. -/
def jsonStrings (xs : List String) : String :=
  "[" ++ stringsJoin (xs.map jsonString) "," ++ "]"

/-- The order of Go strings, on their characters: the first difference decides,
and a proper prefix comes first. -/
def keyLess : List Char → List Char → Bool
  | [], [] => false
  | [], _ :: _ => true
  | _ :: _, [] => false
  | a :: as, b :: bs =>
    if a.toNat < b.toNat then true
    else if b.toNat < a.toNat then false
    else keyLess as bs

/-- Insertion of a member into members ordered by name. -/
def insertByKey (e : String × String) : List (String × String) → List (String × String)
  | [] => [e]
  | x :: xs => if keyLess e.1.toList x.1.toList then e :: x :: xs else x :: insertByKey e xs

/-- The members of a Go map in the order `encoding/json` writes them: sorted by key. -/
def sortByKey (l : List (String × String)) : List (String × String) :=
  l.foldr insertByKey []

/-- A JSON object of members whose values are already JSON text. -/
def jsonObject (members : List (String × String)) : String :=
  "\x7b" ++ stringsJoin (members.map fun m => jsonString m.1 ++ ":" ++ m.2) "," ++ "\x7d"

/-- The type `vcapApplication`, with its JSON names in the order of declaration.
The members marked `omitempty` are `Host`, `InstanceID`, `InstanceIndex`, `Port`. -/
structure vcapApplication where
  ApplicationID : String := ""
  ApplicationName : String := ""
  ApplicationURIs : List String := []
  ApplicationVersion : String := ""
  Host : String := ""
  InstanceID : String := ""
  InstanceIndex : Option Nat := none
  Limits : List (String × Nat) := []
  Name : String := ""
  Port : Option Nat := none
  SpaceID : String := ""
  SpaceName : String := ""
  URIs : List String := []
  Version : String := ""
  deriving DecidableEq, Repr

/-- The members `json.Marshal` writes for a `vcapApplication` whose slices and
map are not nil: a member marked `omitempty` is left out when it is empty. -/
def vcapApplication.members (v : vcapApplication) : List (String × String) :=
  [("application_id", jsonString v.ApplicationID),
   ("application_name", jsonString v.ApplicationName),
   ("application_uris", jsonStrings v.ApplicationURIs),
   ("application_version", jsonString v.ApplicationVersion)]
  ++ (if v.Host = "" then [] else [("host", jsonString v.Host)])
  ++ (if v.InstanceID = "" then [] else [("instance_id", jsonString v.InstanceID)])
  ++ (match v.InstanceIndex with | none => [] | some i => [("instance_index", toString i)])
  ++ [("limits", jsonObject (sortByKey (v.Limits.map fun l => (l.1, toString l.2)))),
      ("name", jsonString v.Name)]
  ++ (match v.Port with | none => [] | some p => [("port", toString p)])
  ++ [("space_id", jsonString v.SpaceID),
      ("space_name", jsonString v.SpaceName),
      ("uris", jsonStrings v.URIs),
      ("version", jsonString v.Version)]

/-- The text `json.Marshal` returns for a `vcapApplication`. -/
def vcapApplication.marshal (v : vcapApplication) : String :=
  jsonObject v.members

/-- The type `service.Services`, declared outside `local/stager.go`: a Go map
from the name of a service to its bindings, `none` being the nil map. A
binding list is carried as what `json.Marshal` makes of it, a text or an error. -/
abbrev Services := Option (AList fun _ : String => Except GoError String)

/-- The members of a service map as JSON text, or the first error among them. -/
def marshalMembers : List (String × Except GoError String) → Except GoError (List (String × String))
  | [] => .ok []
  | (_, .error err) :: _ => .error err
  | (k, .ok v) :: rest =>
    match marshalMembers rest with
    | .error err => .error err
    | .ok members => .ok ((k, v) :: members)

/-- The call `json.Marshal(services)`: a nil map is written `null`, any other map
as an object. -/
def marshalServices : Services → Except GoError String
  | none => .ok "null"
  | some m =>
    match marshalMembers (m.entries.map fun e => (e.1, e.2)) with
    | .error err => .error err
    | .ok members => .ok (jsonObject (sortByKey members))

/-! ## Environment maps -/

/-- A Go `map[string]string`. A nil map is the empty map: it is only ranged over. -/
abbrev GoMap := AList fun _ : String => String

/-- A map literal `map[string]string{k: v, ...}`. -/
def mapLiteral (l : List (String × String)) : GoMap :=
  l.foldl (fun m kv => m.insert kv.1 kv.2) ∅

/-- Modelled from the spec: `mergeMaps`, which is declared outside
`local/stager.go`. The spec has the layers merged in the order given, "where
later layers win on key collision", with "no error on collision": each layer
is ranged over and its entries are stored in the result. -/
def mergeMaps (maps : List GoMap) : GoMap :=
  maps.foldl (fun result m => m.entries.foldl (fun r e => r.insert e.1 e.2) result) ∅

/-- Modelled from the spec: `mapToEnv`, which is declared outside
`local/stager.go`. The map is "flattened to a process-environment-compatible
list": one `KEY=value` per entry. -/
def mapToEnv (env : GoMap) : List String :=
  env.entries.map fun e => e.1 ++ "=" ++ e.2

/-! ## What `Stage` is called with -/

/-- The fields of `AppConfig` that `Stage` reads. -/
structure AppConfig where
  Name : String
  StagingEnv : GoMap := ∅
  Env : GoMap := ∅
  Services : Services := none

/-- The type `StageConfig`. `AppTar` is the reader of the application archive. -/
structure StageConfig where
  AppTar : Nat
  Buildpacks : List String
  AppConfig : AppConfig

/-- The type `Colorizer`. -/
abbrev Colorizer := String → List String → String

/-! ## The container handle `utils.Container` -/

/-- Modelled from the spec: the type `utils.Container`, declared outside
`local/stager.go`, the spec's container handle "{name, desired-config,
engine-ref, last-error}". `Name` and `Config` are the fields `Stage` sets and
`id` is the engine's reference, empty until a create succeeds. The field `Err`
points at the caller's named result `err`, which the methods below take and
give back. -/
structure Container where
  Name : String
  Config : ContainerConfig
  id : String := ""
  deriving DecidableEq, Repr

/-- Modelled from the spec: `utils.Container.Create`, which "requests container
creation; on failure, returns a handle with empty reference and the failure
recorded"; the reference "becomes non-empty only after a successful create
call". Returns the handle, the caller's `err` and the engine call made. -/
def Container.Create (d : Docker) (c : Container) (err : Option GoError) :
    Container × Option GoError × List Event :=
  match d.ContainerCreate c.Config c.Name with
  | .error e => (c, some e, [.containerCreate c.Name c.Config])
  | .ok id => ({ c with id := id }, err, [.containerCreate c.Name c.Config])

/-- Modelled from the spec: `utils.Container.ID`, the engine's reference, empty
when there is none. -/
def Container.ID (c : Container) : String := c.id

/-- Modelled from the spec: `utils.Container.Remove`, the "idempotent forced
removal" whose failure is "never escalated past the primary staging/download
error": the engine is asked to remove the container when the handle has a
reference, and the caller's `err` is left alone. -/
def Container.Remove (c : Container) : List Event :=
  if c.id = "" then [] else [.containerRemove c.id]

/-- Modelled from the spec: `utils.Container.RemoveAfterCopy`, which "schedules
container removal to occur only after all of the given Byte Streams ... have
been closed" and is "safe to call even if those streams are never produced due
to an earlier failure (then removal happens immediately)". Takes the value
`*rc`; returns the value it leaves in `*rc` and the engine calls made. -/
def Container.RemoveAfterCopy (c : Container) (rc : Option ReadCloser) :
    Option ReadCloser × List Event :=
  match rc with
  | none => (none, c.Remove)
  | some r => (some (.closeWrapper r c.id), [])

/-! ## Named results and deferred calls -/

/-- The named results of `Stage` (`droplet`, `err`) or `Download` (`stream`,
`err`), and the log of what was done so far. After the return it holds what
the caller receives. -/
structure Frame where
  stream : Stream := {}
  err : Option GoError := none
  log : List Event := []
  deriving DecidableEq, Repr

/-- One more event in the log. -/
def Frame.push (f : Frame) (e : Event) : Frame := { f with log := f.log ++ [e] }

/-- A statement `return stream, err` with the deferred calls `deferred` pending,
the last registered first: the operands are stored in the named results, then
the deferred calls run in that order, each on the frame the one before left. -/
def Frame.ret (f : Frame) (stream : Stream) (err : Option GoError)
    (deferred : List (Frame → Frame)) : Frame :=
  deferred.foldl (fun f d => d f) { f with stream := stream, err := err }

/-- The deferred call `cont.RemoveAfterCopy(&droplet.ReadCloser)`: when it runs
it reads the named result through the pointer and stores what the method leaves. -/
def deferRemoveAfterCopy (cont : Container) (f : Frame) : Frame :=
  let r := cont.RemoveAfterCopy f.stream.ReadCloser
  { f with
    stream := { f.stream with ReadCloser := r.1 }
    log := f.log ++ Event.removeAfterCopy cont.id f.stream.ReadCloser :: r.2 }

/-- The deferred call `logs.Close()`. -/
def deferLogsClose (logs : Nat) (f : Frame) : Frame := f.push (.logsClose logs)

/-! ## `Stage` -/

/-- The descriptor `Stage` marshals into `VCAP_APPLICATION` (lines 68-79). -/
def stageApplication (name : String) : vcapApplication :=
  { ApplicationID := "01d31c12-d066-495e-aca2-8d3403165360"
    ApplicationName := name
    ApplicationURIs := ["localhost"]
    ApplicationVersion := "2b860df9-a0a1-474c-b02f-5985f53ea0bb"
    Limits := [("fds", 16384), ("mem", 512), ("disk", 1024)]
    Name := name
    SpaceID := "18300c1c-1aa4-4ae7-81e6-ae59c6cdbaf1"
    SpaceName := "cflocal-space"
    URIs := ["localhost"]
    Version := "18300c1c-1aa4-4ae7-81e6-ae59c6cdbaf1" }

/-- The services `Stage` marshals (lines 84-87): a nil map is replaced by
`service.Services{}`. -/
def stageServices (services : Services) : Services :=
  match services with
  | none => some ∅
  | some m => some m

/-- The map `env` of `Stage` (lines 92-105). -/
def stageEnv (vcapApp vcapServices : String) : GoMap :=
  mapLiteral
    [("CF_INSTANCE_ADDR", ""),
     ("CF_INSTANCE_IP", "0.0.0.0"),
     ("CF_INSTANCE_PORT", ""),
     ("CF_INSTANCE_PORTS", "[]"),
     ("CF_STACK", "cflinuxfs2"),
     ("HOME", "/home/vcap"),
     ("LANG", "en_US.UTF-8"),
     ("MEMORY_LIMIT", "512m"),
     ("PATH", "/usr/local/bin:/usr/bin:/bin"),
     ("USER", "vcap"),
     ("VCAP_APPLICATION", vcapApp),
     ("VCAP_SERVICES", vcapServices)]

/-- The container `cont` of `Stage` (lines 106-122), before `Create`. -/
def stageContainer (config : StageConfig) (env : GoMap) : Container :=
  { Name := config.AppConfig.Name ++ "-stage"
    Config :=
      { Hostname := "cflocal"
        User := "vcap"
        Env := mapToEnv (mergeMaps [env, config.AppConfig.StagingEnv, config.AppConfig.Env])
        Image := "cflocal"
        WorkingDir := "/home/vcap"
        Entrypoint :=
          ["/tmp/lifecycle/builder",
           "-buildpackOrder", stringsJoin config.Buildpacks ",",
           "-skipDetect=" ++ fmtBool (config.Buildpacks.length == 1)] } }

/-- The method `(*Stager).Stage`, in a run in which nothing arrives on
`ExitChan`. The result holds the returned `droplet` and `err`. The call
`json.Marshal` of lines 68-79 cannot fail on a `vcapApplication`, so the return
of lines 80-82 is never taken; the options of `ContainerLogs` are constants. -/
def Stager.Stage (u : Utils) (s : Stager) (config : StageConfig) (color : Colorizer) : Frame :=
  let name := config.AppConfig.Name
  let build := s.buildDockerfile u
  let f : Frame := { log := build.log }
  match build.err with
  | some err => f.ret {} (some err) []
  | none =>
    let vcapApp := (stageApplication name).marshal
    match marshalServices (stageServices config.AppConfig.Services) with
    | .error err => f.ret {} (some err) []
    | .ok vcapServices =>
      let env := stageEnv vcapApp vcapServices
      let created := (stageContainer config env).Create s.Docker none
      let cont := created.1
      let f := { f with err := created.2.1, log := f.log ++ created.2.2 }
      let id := cont.ID
      if id = "" then f.ret {} f.err []
      else
        let deferred := [deferRemoveAfterCopy cont]
        let f := f.push (.copyToContainer id "/tmp/app" config.AppTar)
        match s.Docker.CopyToContainer id "/tmp/app" config.AppTar with
        | some err => f.ret {} (some err) deferred
        | none =>
          let f := f.push (.containerStart id)
          match s.Docker.ContainerStart id with
          | some err => f.ret {} (some err) deferred
          | none =>
            let f := f.push (.containerLogs id)
            match s.Docker.ContainerLogs id with
            | .error err => f.ret {} (some err) deferred
            | .ok logs =>
              let deferred := deferLogsClose logs :: deferred
              let f := f.push (.copyStream logs (color "[%s] " [name]))
              let f := f.push (.containerWait id)
              match s.Docker.ContainerWait id with
              | .error err => f.ret {} (some err) deferred
              | .ok status =>
                if status ≠ 0 then
                  f.ret {} (some (.errorf ("container exited with status " ++ toString status)))
                    deferred
                else
                  let f := f.push (.copyFromContainer id "/tmp/droplet")
                  match s.Docker.CopyFromContainer id "/tmp/droplet" with
                  | .error err => f.ret {} (some err) deferred
                  | .ok (dropletTar, size) =>
                    let f := { f with stream := { f.stream with ReadCloser := some (.archive dropletTar) } }
                    match u.FileFromTar "droplet" dropletTar with
                    | .error err => f.ret {} (some err) deferred
                    | .ok dropletReader =>
                      f.ret ⟨some (.splitReadCloser dropletReader (.archive dropletTar)), size⟩
                        none deferred

/-! ## `Download` -/

/-- Go's `filepath.Base` on a slash-separated path. -/
def filepathBase (path : String) : String :=
  if path = "" then "."
  else
    let stripped := path.toList.reverse.dropWhile fun c => c = Char.ofNat 47
    if stripped = [] then "/"
    else String.mk (stripped.takeWhile fun c => c ≠ Char.ofNat 47).reverse

/-- The method `(*Stager).Download`. The result holds the returned `stream`
and `err`. -/
def Stager.Download (u : Utils) (s : Stager) (path : String) : Frame :=
  let build := s.buildDockerfile u
  let f : Frame := { log := build.log }
  match build.err with
  | some err => f.ret {} (some err) []
  | none =>
    let filename := filepathBase path
    let cont : Container :=
      { Name := filename, Config := { Image := "cflocal", Entrypoint := ["bash"] } }
    let created := cont.Create s.Docker none
    let cont := created.1
    let f := { f with err := created.2.1, log := f.log ++ created.2.2 }
    let id := cont.ID
    if id = "" then f.ret {} f.err []
    else
      let deferred := [deferRemoveAfterCopy cont]
      let f := f.push (.copyFromContainer id path)
      match s.Docker.CopyFromContainer id path with
      | .error err => f.ret {} (some err) deferred
      | .ok (tar, size) =>
        let f := { f with stream := { f.stream with ReadCloser := some (.archive tar) } }
        match u.FileFromTar filename tar with
        | .error err => f.ret {} (some err) deferred
        | .ok reader =>
          f.ret ⟨some (.splitReadCloser reader (.archive tar)), size⟩ none deferred

/-! ## Vocabulary of the properties of `Stage` -/

/-- How often the deferred `cont.RemoveAfterCopy` was called in a log. -/
def removeAfterCopyCalls (log : List Event) : Nat :=
  log.countP fun e => match e with
    | .removeAfterCopy _ _ => true
    | _ => false

/-- How often the engine was asked to remove a container in a log. -/
def containerRemoves (log : List Event) : Nat :=
  log.countP fun e => match e with
    | .containerRemove _ => true
    | _ => false

/-- The points at which a run of `Stage` that reached the creation of its
container may fail. -/
inductive FailurePoint where
  | create
  | push
  | start
  | wait
  | pull
  deriving DecidableEq, Repr

/-- The engine's answers on the way to a failure point of `Stage`: every call
before the point succeeds (the image is built, the services are marshalled, the
container gets a non-empty ID), and the call at the point fails, `wait` by
reporting a non-zero status. -/
def FailsAt (u : Utils) (s : Stager) (config : StageConfig) (p : FailurePoint) : Prop :=
  (s.buildDockerfile u).err = none ∧
  ∃ vcapServices, marshalServices (stageServices config.AppConfig.Services) = .ok vcapServices ∧
    let cont := stageContainer config
      (stageEnv (stageApplication config.AppConfig.Name).marshal vcapServices)
    match p with
    | .create => ∃ err, s.Docker.ContainerCreate cont.Config cont.Name = .error err
    | .push => ∃ id err, s.Docker.ContainerCreate cont.Config cont.Name = .ok id ∧ id ≠ "" ∧
        s.Docker.CopyToContainer id "/tmp/app" config.AppTar = some err
    | .start => ∃ id err, s.Docker.ContainerCreate cont.Config cont.Name = .ok id ∧ id ≠ "" ∧
        s.Docker.CopyToContainer id "/tmp/app" config.AppTar = none ∧
        s.Docker.ContainerStart id = some err
    | .wait => ∃ id logs status, s.Docker.ContainerCreate cont.Config cont.Name = .ok id ∧ id ≠ "" ∧
        s.Docker.CopyToContainer id "/tmp/app" config.AppTar = none ∧
        s.Docker.ContainerStart id = none ∧
        s.Docker.ContainerLogs id = .ok logs ∧
        s.Docker.ContainerWait id = .ok status ∧ status ≠ 0
    | .pull => ∃ id logs err, s.Docker.ContainerCreate cont.Config cont.Name = .ok id ∧ id ≠ "" ∧
        s.Docker.CopyToContainer id "/tmp/app" config.AppTar = none ∧
        s.Docker.ContainerStart id = none ∧
        s.Docker.ContainerLogs id = .ok logs ∧
        s.Docker.ContainerWait id = .ok 0 ∧
        s.Docker.CopyFromContainer id "/tmp/droplet" = .error err

/-! ## Sample inputs -/

/-- An engine on which every call succeeds: the build answers two messages
without error, the container is `c1` and exits with status 0. -/
def sampleDocker : Docker :=
  { ImageBuild := fun _ _ => .ok [.message "", .message ""]
    ContainerCreate := fun _ _ => .ok "c1"
    CopyToContainer := fun _ _ _ => none
    ContainerStart := fun _ => none
    ContainerLogs := fun _ => .ok 7
    ContainerWait := fun _ => .ok 0
    CopyFromContainer := fun _ _ => .ok (3, 100) }

/-- The sample engine, failing at one point. -/
def dockerFailingAt : FailurePoint → Docker
  | .create => { sampleDocker with ContainerCreate := fun _ _ => .error (.failure "no such image") }
  | .push => { sampleDocker with CopyToContainer := fun _ _ _ => some (.failure "copy failed") }
  | .start => { sampleDocker with ContainerStart := fun _ => some (.failure "cannot start") }
  | .wait => { sampleDocker with ContainerWait := fun _ => .ok 1 }
  | .pull => { sampleDocker with CopyFromContainer := fun _ _ => .error (.failure "no such path") }

/-- Helpers that succeed: the archive holds the entry asked for. -/
def sampleUtils : Utils :=
  { dockerfile := fun diego go stack _ => .ok ("FROM " ++ stack ++ " " ++ diego ++ " " ++ go)
    TarFile := fun _ content _ => .ok content
    FileFromTar := fun _ _ => .ok 4 }

/-- Helpers with an archive that lacks the entry asked for. -/
def utilsWithoutEntry : Utils :=
  { sampleUtils with FileFromTar := fun _ _ => .error (.failure "file not found") }

/-- A stager on the given engine. -/
def sampleStager (d : Docker) : Stager :=
  { DiegoVersion := "0.1482.0", GoVersion := "1.7", StackVersion := "latest",
    UpdateRootFS := false, Docker := d }

/-- A request to stage the application `app` with one buildpack. -/
def sampleConfig : StageConfig :=
  { AppTar := 1, Buildpacks := ["ruby_buildpack"], AppConfig := { Name := "app" } }

/-- The sample request with a user-declared `VCAP_APPLICATION`. -/
def overridingConfig : StageConfig :=
  { AppTar := 1, Buildpacks := ["ruby_buildpack"],
    AppConfig := { Name := "app", Env := mapLiteral [("VCAP_APPLICATION", "mine")] } }

/-- A `Colorizer` that leaves the text as it is. -/
def plain : Colorizer := fun format _ => format

/-- The sample request with a staging layer and a user layer that both set
`LANG` and each set a key of their own. -/
def layeredConfig : StageConfig :=
  { AppTar := 1, Buildpacks := [],
    AppConfig :=
      { Name := "app"
        StagingEnv := mapLiteral [("LANG", "C"), ("BP_DEBUG", "1")]
        Env := mapLiteral [("LANG", "de_DE.UTF-8"), ("RACK_ENV", "test")] } }

/-- The sample engine with a build that reports an error in its second
message and has a third message after it. -/
def dockerBuildError : Docker :=
  { sampleDocker with
    ImageBuild := fun _ _ =>
      .ok [.message "", .message "no space left on device", .message "later"] }

end Local

namespace Cmd

/-! ## `crypto/md5` -/

/-- The per-round shift amounts of MD5. -/
def md5Shifts : List Nat :=
  [7, 12, 17, 22, 7, 12, 17, 22, 7, 12, 17, 22, 7, 12, 17, 22,
   5, 9, 14, 20, 5, 9, 14, 20, 5, 9, 14, 20, 5, 9, 14, 20,
   4, 11, 16, 23, 4, 11, 16, 23, 4, 11, 16, 23, 4, 11, 16, 23,
   6, 10, 15, 21, 6, 10, 15, 21, 6, 10, 15, 21, 6, 10, 15, 21]

/-- The constants of MD5: the integer part of `2^32 * |sin (i + 1)|`. -/
def md5Constants : List Nat :=
  [0xd76aa478, 0xe8c7b756, 0x242070db, 0xc1bdceee, 0xf57c0faf, 0x4787c62a, 0xa8304613, 0xfd469501,
   0x698098d8, 0x8b44f7af, 0xffff5bb1, 0x895cd7be, 0x6b901122, 0xfd987193, 0xa679438e, 0x49b40821,
   0xf61e2562, 0xc040b340, 0x265e5a51, 0xe9b6c7aa, 0xd62f105d, 0x02441453, 0xd8a1e681, 0xe7d3fbc8,
   0x21e1cde6, 0xc33707d6, 0xf4d50d87, 0x455a14ed, 0xa9e3e905, 0xfcefa3f8, 0x676f02d9, 0x8d2a4c8a,
   0xfffa3942, 0x8771f681, 0x6d9d6122, 0xfde5380c, 0xa4beea44, 0x4bdecfa9, 0xf6bb4b60, 0xbebfbc70,
   0x289b7ec6, 0xeaa127fa, 0xd4ef3085, 0x04881d05, 0xd9d4d039, 0xe6db99e5, 0x1fa27cf8, 0xc4ac5665,
   0xf4292244, 0x432aff97, 0xab9423a7, 0xfc93a039, 0x655b59c3, 0x8f0ccc92, 0xffeff47d, 0x85845dd1,
   0x6fa87e4f, 0xfe2ce6e0, 0xa3014314, 0x4e0811a1, 0xf7537e82, 0xbd3af235, 0x2ad7d2bb, 0xeb86d391]

/-- The four 32-bit words of the MD5 state. -/
structure Md5State where
  a : Nat
  b : Nat
  c : Nat
  d : Nat
  deriving DecidableEq, Repr

/-- Rotation of a 32-bit word to the left. -/
def rotateLeft32 (x c : Nat) : Nat :=
  ((x <<< c) ||| (x >>> (32 - c))) % 2 ^ 32

/-- The complement of a 32-bit word. -/
def not32 (x : Nat) : Nat := 2 ^ 32 - 1 - x % 2 ^ 32

/-- The message with the padding of MD5: the byte `0x80`, zero bytes up to 56
modulo 64, and the length in bits as 8 bytes, least significant first. -/
def md5Pad (bytes : List Nat) : List Nat :=
  let zeros := (119 - bytes.length % 64) % 64
  bytes ++ [0x80] ++ List.replicate zeros 0 ++
    (List.range 8).map fun i => (8 * bytes.length / 256 ^ i) % 256

/-- The 32-bit word `g` of a block, least significant byte first. -/
def md5Word (block : List Nat) (g : Nat) : Nat :=
  block.getD (4 * g) 0 + 256 * block.getD (4 * g + 1) 0 + 65536 * block.getD (4 * g + 2) 0 +
    16777216 * block.getD (4 * g + 3) 0

/-- Operation `i` of the 64 operations on a block. -/
def md5Step (block : List Nat) (s : Md5State) (i : Nat) : Md5State :=
  let f :=
    if i < 16 then (s.b &&& s.c) ||| (not32 s.b &&& s.d)
    else if i < 32 then (s.d &&& s.b) ||| (not32 s.d &&& s.c)
    else if i < 48 then s.b ^^^ s.c ^^^ s.d
    else s.c ^^^ (s.b ||| not32 s.d)
  let g :=
    if i < 16 then i
    else if i < 32 then (5 * i + 1) % 16
    else if i < 48 then (3 * i + 5) % 16
    else (7 * i) % 16
  let sum := (f + s.a + md5Constants.getD i 0 + md5Word block g) % 2 ^ 32
  { a := s.d, d := s.c, c := s.b, b := (s.b + rotateLeft32 sum (md5Shifts.getD i 0)) % 2 ^ 32 }

/-- The state after one more block of 64 bytes. -/
def md5Block (s : Md5State) (block : List Nat) : Md5State :=
  let t := (List.range 64).foldl (md5Step block) s
  { a := (s.a + t.a) % 2 ^ 32, b := (s.b + t.b) % 2 ^ 32,
    c := (s.c + t.c) % 2 ^ 32, d := (s.d + t.d) % 2 ^ 32 }

/-- The digest `md5.Sum` of a sequence of bytes, as 16 bytes. -/
def md5Sum (bytes : List Nat) : List Nat :=
  let padded := md5Pad bytes
  let s := (List.range (padded.length / 64)).foldl
    (fun s i => md5Block s ((padded.drop (64 * i)).take 64))
    { a := 0x67452301, b := 0xefcdab89, c := 0x98badcfe, d := 0x10325476 }
  [s.a, s.b, s.c, s.d].flatMap fun w => (List.range 4).map fun i => (w / 256 ^ i) % 256

/-- The bytes of a Go string, for a string that is valid UTF-8. -/
def stringBytes (s : String) : List Nat :=
  s.toList.flatMap fun c => (String.utf8EncodeChar c).map UInt8.toNat

/-- The expression `fmt.Sprintf("%x", md5.Sum([]byte(buildpack)))`: the digest in
lower-case hexadecimal, two digits a byte. -/
def md5hex (s : String) : String :=
  String.mk ((md5Sum (stringBytes s)).flatMap fun b => [hexDigit (b / 16), hexDigit (b % 16)])

/-! ## The collaborators of the `stage` command -/

/-- Modelled from the spec: `engine.Stream`, which is declared outside
`cf/cmd/stage.go`, "a value pairing a readable byte source with a known total
length". The source is named by a handle. -/
structure Stream where
  ReadCloser : Nat
  Size : Int
  deriving DecidableEq, Repr

/-- Modelled from the spec: `engine.NewStream`, which pairs the source with its length. -/
def NewStream (data : Nat) (size : Int) : Stream := ⟨data, size⟩

/-- The type `stageOptions`. -/
structure stageOptions where
  name : String := ""
  buildpacks : List String := []
  app : String := ""
  appDir : String := ""
  serviceApp : String := ""
  forwardApp : String := ""
  forceDetect : Bool := false
  rsync : Bool := false
  deriving DecidableEq, Repr

/-- The method `(*buildpacks).Set`, called by the flag set once per `-b` option. -/
def buildpacks.Set (b : List String) (value : String) : List String := b ++ [value]

/-- The fields of `local.AppConfig` the command reads or sets. The services are
only tested against nil and handed on: they are carried as a reference. -/
structure AppConfig where
  Name : String := ""
  Buildpack : String := ""
  Buildpacks : List String := []
  Services : Option Nat := none
  deriving DecidableEq, Repr

/-- The local configuration returned by `Config.Load`. -/
structure LocalYML where
  Applications : List AppConfig
  deriving DecidableEq, Repr

/-- The `local.StageConfig` that `Run` builds. `Color` names the function
passed, `color.GreenString`. -/
structure StageConfig where
  AppTar : Nat
  Cache : Nat
  CacheEmpty : Bool
  BuildpackZips : AList fun _ : String => Stream
  AppDir : String
  ForceDetect : Bool
  RSync : Bool
  Color : String
  AppConfig : AppConfig
  deriving DecidableEq

/-- The interface `FS`: every method takes the state of the world and gives
back the state it leaves. A file is returned as a handle and its size. -/
structure FS (σ : Type) where
  TarApp : String → σ → Except GoError Nat × σ
  Abs : String → σ → Except GoError String × σ
  MakeDirAll : String → σ → Option GoError × σ
  ReadFile : String → σ → Except GoError (Nat × Int) × σ
  OpenFile : String → σ → Except GoError (Nat × Int) × σ
  WriteFile : String → σ → Except GoError Nat × σ

/-- The interface `UI`. -/
structure UI (σ : Type) where
  Warn : String → List String → σ → σ
  Output : String → List String → σ → σ

/-- The interface `Stager`. -/
structure Stager (σ : Type) where
  Stage : StageConfig → σ → Except GoError Stream × σ

/-- The interface `Help`. -/
structure Help (σ : Type) where
  Short : σ → σ

/-- The interface `Config`. -/
structure Config (σ : Type) where
  Load : σ → Except GoError LocalYML × σ

/-- Code of package `cmd` and of its libraries that is outside
`cf/cmd/stage.go`, taken as parameters. -/
structure Package (σ : Type) where
  /-- The function `parseOptions` with the callback of `options`: the options the
  flag set leaves, and the error. -/
  parseOptions : List String → stageOptions × Option GoError
  getAppConfig : String → LocalYML → AppConfig
  /-- The function `getRemoteServices` on `s.App` and the two application names. -/
  getRemoteServices : String → String → σ → Except GoError (Option Nat) × σ
  /-- The method `Out` of a stream, writing it to a file. -/
  Out : Stream → Nat → σ → Option GoError × σ
  /-- The method `Close` of a file or stream. -/
  Close : Nat → σ → σ

/-- The type `Stage`, the receiver of `Run`. The field `App` is only handed to
`getRemoteServices`. -/
structure Stage (σ : Type) where
  UI : UI σ
  Stager : Stager σ
  FS : FS σ
  Help : Help σ
  Config : Config σ
  Package : Package σ

/-- A call of a collaborator made by `Run`, with what the properties use of its
answer: whether `ReadFile` succeeded, the size `OpenFile` reported. -/
inductive Call where
  | helpShort
  | configLoad
  | tarApp (path : String)
  | abs (path : String)
  | makeDirAll (path : String)
  | readFile (path : String) (ok : Bool)
  | getRemoteServices (serviceApp forwardApp : String)
  | warn (format : String) (args : List String)
  | openFile (path : String) (size : Option Int)
  | stage (config : StageConfig)
  | writeFile (path : String)
  | out (stream : Stream) (file : Nat)
  | output (format : String) (args : List String)
  | close (handle : Nat)
  deriving DecidableEq

/-- What a run leaves: the returned error, the state of the world and the calls made. -/
structure Outcome (σ : Type) where
  err : Option GoError
  state : σ
  calls : List Call

/-- A `return err` with the deferred `Close` calls `deferred` pending, the last
registered first. -/
def leave {σ : Type} (s : Stage σ) (err : Option GoError) (st : σ) (calls : List Call)
    (deferred : List Nat) : Outcome σ :=
  ⟨err, deferred.foldl (fun st h => s.Package.Close h st) st, calls ++ deferred.map Call.close⟩

/-! ## `Run` -/

/-- The method `(*Stage).Match`. -/
def Stage.Match (args : List String) : Bool :=
  args.length > 0 && args.head? == some "stage"

/-- The method `(*buildpacks).String`. -/
def buildpacks.String (_ : List String) : String := ""

/-- The method `(*Stage).options`. -/
def Stage.options {σ : Type} (s : Stage σ) (args : List String) : stageOptions × Option GoError :=
  s.Package.parseOptions args

/-- The configuration after lines 71-74: a non-empty list of `-b` options
replaces `Buildpacks`, and its last element `Buildpack`. -/
def withOptions (options : stageOptions) (appConfig : AppConfig) : AppConfig :=
  if options.buildpacks.length > 0 then
    { appConfig with
      Buildpacks := options.buildpacks
      Buildpack := options.buildpacks.getD (options.buildpacks.length - 1) "" }
  else appConfig

/-- The configuration after lines 93-95: remote services that are not nil
replace `Services`. -/
def withServices (remoteServices : Option Nat) (appConfig : AppConfig) : AppConfig :=
  if remoteServices ≠ none then { appConfig with Services := remoteServices } else appConfig

/-- What the loop over the buildpacks leaves: the map `buildpackZips`, the
state of the world and the calls of `ReadFile`. -/
structure Zips (σ : Type) where
  buildpackZips : AList fun _ : String => Stream
  state : σ
  calls : List Call

/-- The loop of lines 76-87 on the buildpacks still to visit, the map so far and
the state of the world. -/
def readBuildpacks {σ : Type} (fs : FS σ) :
    List String → (AList fun _ : String => Stream) → σ → Zips σ
  | [], buildpackZips, st => ⟨buildpackZips, st, []⟩
  | buildpack :: rest, buildpackZips, st =>
    let checksum := md5hex buildpack
    if (buildpackZips.lookup checksum).isSome then readBuildpacks fs rest buildpackZips st
    else
      match fs.ReadFile buildpack st with
      | (.error _, st) =>
        let r := readBuildpacks fs rest buildpackZips st
        { r with calls := Call.readFile buildpack false :: r.calls }
      | (.ok (zip, size), st) =>
        let r := readBuildpacks fs rest (buildpackZips.insert checksum (NewStream zip size)) st
        { r with calls := Call.readFile buildpack true :: r.calls }

/-- The method `(*Stage).streamOut`. -/
def Stage.streamOut {σ : Type} (s : Stage σ) (stream : Stream) (path : String) (st : σ) :
    Outcome σ :=
  match s.FS.WriteFile path st with
  | (.error err, st) => ⟨some err, st, [.writeFile path]⟩
  | (.ok file, st) =>
    let r := s.Package.Out stream file st
    leave s r.1 r.2 [.writeFile path, .out stream file] [file]

/-- Lines 59-67 of `Run`: the directory `appDir`, made when the option `-d` is
given, or the error that ends the run; with the state left and the calls made. -/
def Stage.makeAppDir {σ : Type} (s : Stage σ) (options : stageOptions) (st : σ) :
    Except GoError String × σ × List Call :=
  if options.appDir ≠ "" then
    match s.FS.Abs options.appDir st with
    | (.error err, st) => (.error err, st, [.abs options.appDir])
    | (.ok appDir, st) =>
      match s.FS.MakeDirAll appDir st with
      | (some err, st) => (.error err, st, [.abs options.appDir, .makeDirAll appDir])
      | (none, st) => (.ok appDir, st, [.abs options.appDir, .makeDirAll appDir])
  else (.ok "", st, [])

/-- Lines 96-98 of `Run`: the warning given when two different applications are
named for the services and for the forwarding. -/
def Stage.warnForwarding {σ : Type} (s : Stage σ) (options : stageOptions) (st : σ) :
    σ × List Call :=
  if options.serviceApp ≠ options.forwardApp ∧ options.serviceApp ≠ "" ∧
      options.forwardApp ≠ "" then
    (s.UI.Warn "'%s' app selected for service forwarding will not be used"
        [options.forwardApp] st,
      [.warn "'%s' app selected for service forwarding will not be used" [options.forwardApp]])
  else (st, [])

/-- The method `(*Stage).Run`. -/
def Stage.Run {σ : Type} (s : Stage σ) (args : List String) (st : σ) : Outcome σ :=
  match s.options args with
  | (_, some err) => ⟨some err, s.Help.Short st, [.helpShort]⟩
  | (options, none) =>
    let dropletPath := "./" ++ options.name ++ ".droplet"
    let cachePath := "./." ++ options.name ++ ".cache"
    match s.Config.Load st with
    | (.error err, st) => ⟨some err, st, [.configLoad]⟩
    | (.ok localYML, st) =>
      let calls := [Call.configLoad, Call.tarApp options.app]
      match s.FS.TarApp options.app st with
      | (.error err, st) => ⟨some err, st, calls⟩
      | (.ok appTar, st) =>
        let made := s.makeAppDir options st
        let calls := calls ++ made.2.2
        match made.1 with
        | .error err => leave s (some err) made.2.1 calls [appTar]
        | .ok appDir =>
          let appConfig := withOptions options (s.Package.getAppConfig options.name localYML)
          let zips := readBuildpacks s.FS (appConfig.Buildpack :: appConfig.Buildpacks) ∅ made.2.1
          let buildpackZips := zips.buildpackZips
          let calls := calls ++ zips.calls ++
            [Call.getRemoteServices options.serviceApp options.forwardApp]
          match s.Package.getRemoteServices options.serviceApp options.forwardApp zips.state with
          | (.error err, st) => leave s (some err) st calls [appTar]
          | (.ok remoteServices, st) =>
            let appConfig := withServices remoteServices appConfig
            let warned := s.warnForwarding options st
            let calls := calls ++ warned.2
            match s.FS.OpenFile cachePath warned.1 with
            | (.error err, st) =>
              leave s (some err) st (calls ++ [.openFile cachePath none]) [appTar]
            | (.ok (cache, cacheSize), st) =>
              let calls := calls ++ [.openFile cachePath (some cacheSize)]
              let config : StageConfig :=
                { AppTar := appTar
                  Cache := cache
                  CacheEmpty := cacheSize == 0
                  BuildpackZips := buildpackZips
                  AppDir := appDir
                  ForceDetect := options.forceDetect
                  RSync := options.rsync
                  Color := "color.GreenString"
                  AppConfig := appConfig }
              let calls := calls ++ [.stage config]
              match s.Stager.Stage config st with
              | (.error err, st) => leave s (some err) st calls [cache, appTar]
              | (.ok droplet, st) =>
                let written := s.streamOut droplet dropletPath st
                let calls := calls ++ written.calls
                match written.err with
                | some err => leave s (some err) written.state calls [cache, appTar]
                | none =>
                  leave s none
                    (s.UI.Output "Successfully staged: %s" [options.name] written.state)
                    (calls ++ [.output "Successfully staged: %s" [options.name]])
                    [cache, appTar]

/-! ## Vocabulary of the properties of `Run` -/

/-- The calls of `ReadFile` in a list of calls, in order: the path and whether
the call succeeded. -/
def readFileCalls : List Call → List (String × Bool)
  | [] => []
  | .readFile path ok :: rest => (path, ok) :: readFileCalls rest
  | _ :: rest => readFileCalls rest

/-- A call that is neither `ReadFile`, `OpenFile` nor `Stager.Stage`. -/
def Call.other : Call → Bool
  | .readFile _ _ => false
  | .openFile _ _ => false
  | .stage _ => false
  | _ => true

/-- A result without error. -/
def succeeded {α : Type} : Except GoError α → Bool
  | .ok _ => true
  | .error _ => false

/-- The calls of `OpenFile` in a list of calls, in order: the path and the size
reported, `none` when the call failed. -/
def openFileCalls : List Call → List (String × Option Int)
  | [] => []
  | .openFile path size :: rest => (path, size) :: openFileCalls rest
  | _ :: rest => openFileCalls rest

/-- The configurations `Stager.Stage` was called with in a list of calls, in order. -/
def stageCalls : List Call → List StageConfig
  | [] => []
  | .stage config :: rest => config :: stageCalls rest
  | _ :: rest => stageCalls rest

/-- Every collaborator other than `FS.ReadFile` succeeds, whatever the state of
the world: the options parse, and no other call returns an error. -/
def OthersSucceed {σ : Type} (s : Stage σ) (args : List String) : Prop :=
  (s.options args).2 = none ∧
  (∀ st, succeeded (s.Config.Load st).1 = true) ∧
  (∀ p st, succeeded (s.FS.TarApp p st).1 = true) ∧
  (∀ p st, succeeded (s.FS.Abs p st).1 = true) ∧
  (∀ p st, (s.FS.MakeDirAll p st).1 = none) ∧
  (∀ a f st, succeeded (s.Package.getRemoteServices a f st).1 = true) ∧
  (∀ p st, succeeded (s.FS.OpenFile p st).1 = true) ∧
  (∀ c st, succeeded (s.Stager.Stage c st).1 = true) ∧
  (∀ p st, succeeded (s.FS.WriteFile p st).1 = true) ∧
  (∀ d f st, (s.Package.Out d f st).1 = none)

/-! ## Sample inputs -/

/-- The `-b` options of a command line. -/
def sampleBuildpacks : List String → List String
  | "-b" :: value :: rest => buildpacks.Set [] value ++ sampleBuildpacks rest
  | _ => []

/-- A parser of `stage <name> [-b <buildpack>]...`. -/
def sampleParse : List String → stageOptions × Option GoError
  | _ :: name :: rest => ({ name := name, app := ".", buildpacks := sampleBuildpacks rest }, none)
  | _ => ({}, some (.failure "app name required"))

/-- A filesystem whose state counts its calls: `ReadFile` reads the paths that
`readable` accepts, and the cache file has `cacheSize` bytes. -/
def sampleFS (readable : String → Bool) (cacheSize : Int) : FS Nat :=
  { TarApp := fun _ st => (.ok 1, st + 1)
    Abs := fun p st => (.ok ("/work/" ++ p), st + 1)
    MakeDirAll := fun _ st => (none, st + 1)
    ReadFile := fun p st =>
      (if readable p then .ok (2, 2048) else .error (.failure "no such file"), st + 1)
    OpenFile := fun _ st => (.ok (3, cacheSize), st + 1)
    WriteFile := fun _ st => (.ok 4, st + 1) }

/-- A command on `sampleFS` whose other collaborators all succeed; the local
configuration gives every application the buildpacks `./a.zip`, `./gone.zip`
and `./a.zip` again. -/
def sampleStage (readable : String → Bool) (cacheSize : Int) : Stage Nat :=
  { UI := { Warn := fun _ _ st => st, Output := fun _ _ st => st }
    Stager := { Stage := fun _ st => (.ok ⟨5, 4096⟩, st) }
    FS := sampleFS readable cacheSize
    Help := { Short := fun st => st }
    Config := { Load := fun st => (.ok ⟨[]⟩, st) }
    Package :=
      { parseOptions := sampleParse
        getAppConfig := fun name _ =>
          { Name := name, Buildpack := "./a.zip", Buildpacks := ["./gone.zip", "./a.zip"] }
        getRemoteServices := fun _ _ st => (.ok none, st)
        Out := fun _ _ st => (none, st)
        Close := fun _ st => st } }

end Cmd

namespace Local

/-! ## Properties of `buildDockerfile` -/

theorem decodeLoop_quiet_append (pre rest : Decoder) (h : AllQuiet pre) :
    decodeLoop (pre ++ rest) = decodeLoop rest := by
  induction pre with
  | nil => rfl
  | cons x pre ih =>
    have hx : x = Decoded.message "" := h x (List.mem_cons_self _ _)
    have hpre : AllQuiet pre := fun y hy => h y (List.mem_cons_of_mem _ hy)
    subst hx
    simpa [decodeLoop] using ih hpre

theorem decodeLoop_nil_iff (response : Decoder) :
    (decodeLoop response).err = none ↔
      ∃ pre, AllQuiet pre ∧
        (response = pre ∨ ∃ rest, response = pre ++ Decoded.fails GoError.EOF :: rest) := by
  induction response with
  | nil =>
    simp only [decodeLoop, true_iff]
    exact ⟨[], fun _ h => absurd h (List.not_mem_nil _), Or.inl rfl⟩
  | cons x response ih =>
    cases x with
    | fails err =>
      by_cases he : err = GoError.EOF
      · subst he
        simp only [decodeLoop, if_true, true_iff]
        exact ⟨[], fun _ h => absurd h (List.not_mem_nil _), Or.inr ⟨response, rfl⟩⟩
      · simp only [decodeLoop, if_neg he, reduceCtorEq, false_iff]
        rintro ⟨pre, hpre, h | ⟨rest, h⟩⟩
        · subst h
          have := hpre _ (List.mem_cons_self _ _)
          cases this
        · cases pre with
          | nil =>
            simp only [List.nil_append, List.cons.injEq, Decoded.fails.injEq] at h
            exact he h.1
          | cons y pre =>
            simp only [List.cons_append, List.cons.injEq] at h
            have := hpre y (List.mem_cons_self _ _)
            rw [← h.1] at this
            cases this
    | message Error =>
      by_cases hE : Error = ""
      · subst hE
        simp only [decodeLoop, ne_eq, not_true_eq_false, if_false]
        rw [ih]
        constructor
        · rintro ⟨pre, hpre, h⟩
          refine ⟨Decoded.message "" :: pre, ?_, ?_⟩
          · intro y hy
            rcases List.mem_cons.1 hy with rfl | hy
            · rfl
            · exact hpre y hy
          · rcases h with h | ⟨rest, h⟩
            · exact Or.inl (by rw [h])
            · exact Or.inr ⟨rest, by rw [h]; rfl⟩
        · rintro ⟨pre, hpre, h⟩
          cases pre with
          | nil =>
            rcases h with h | ⟨rest, h⟩
            · cases h
            · simp at h
          | cons y pre =>
            refine ⟨pre, fun z hz => hpre z (List.mem_cons_of_mem _ hz), ?_⟩
            rcases h with h | ⟨rest, h⟩
            · simp only [List.cons.injEq] at h
              exact Or.inl h.2
            · simp only [List.cons_append, List.cons.injEq] at h
              exact Or.inr ⟨rest, h.2⟩
      · simp only [decodeLoop, ne_eq, hE, not_false_eq_true, if_true, reduceCtorEq, false_iff]
        rintro ⟨pre, hpre, h | ⟨rest, h⟩⟩
        · subst h
          have := hpre _ (List.mem_cons_self _ _)
          simp only [Decoded.message.injEq] at this
          exact hE this
        · cases pre with
          | nil => simp at h
          | cons y pre =>
            simp only [List.cons_append, List.cons.injEq] at h
            have := hpre y (List.mem_cons_self _ _)
            rw [← h.1] at this
            simp only [Decoded.message.injEq] at this
            exact hE this

theorem buildDockerfile_of_response (u : Utils) (s : Stager) (buf tar : String)
    (response : Decoder)
    (hbuf : u.dockerfile s.DiegoVersion s.GoVersion s.StackVersion s.UpdateRootFS = .ok buf)
    (htar : u.TarFile "Dockerfile" buf 0o644 = .ok tar)
    (hbuild : s.Docker.ImageBuild tar
      { Tags := ["cflocal"], SuppressOutput := true, PullParent := s.UpdateRootFS,
        Remove := true, ForceRemove := true } = .ok response) :
    (s.buildDockerfile u).err = (decodeLoop response).err ∧
      (s.buildDockerfile u).unread = (decodeLoop response).unread := by
  simp only [Stager.buildDockerfile, hbuf, htar, hbuild, and_self]

/-- Claim C4. When the image build is answered with the response `response`,
`buildDockerfile` returns "build failure: msg" for the first message whose
`Error` is a non-empty `msg`, leaving every later message unread; it returns
nil exactly when `Decode` returns `io.EOF` after only messages with an empty
`Error`; and a decode failure other than `io.EOF` that comes before any error
message is returned as it is. -/
theorem buildDockerfile_first_error (u : Utils) (s : Stager) (buf tar : String)
    (response : Decoder)
    (hbuf : u.dockerfile s.DiegoVersion s.GoVersion s.StackVersion s.UpdateRootFS = .ok buf)
    (htar : u.TarFile "Dockerfile" buf 0o644 = .ok tar)
    (hbuild : s.Docker.ImageBuild tar
      { Tags := ["cflocal"], SuppressOutput := true, PullParent := s.UpdateRootFS,
        Remove := true, ForceRemove := true } = .ok response) :
    (∀ pre msg rest, AllQuiet pre → msg ≠ "" →
        response = pre ++ Decoded.message msg :: rest →
        (s.buildDockerfile u).err = some (GoError.errorf ("build failure: " ++ msg)) ∧
        (s.buildDockerfile u).unread = rest) ∧
    ((s.buildDockerfile u).err = none ↔
        ∃ pre, AllQuiet pre ∧
          (response = pre ∨ ∃ rest, response = pre ++ Decoded.fails GoError.EOF :: rest)) ∧
    (∀ pre err rest, AllQuiet pre → err ≠ GoError.EOF →
        response = pre ++ Decoded.fails err :: rest →
        (s.buildDockerfile u).err = some err) := by
  obtain ⟨herr, hun⟩ := buildDockerfile_of_response u s buf tar response hbuf htar hbuild
  rw [herr, hun]
  refine ⟨?_, decodeLoop_nil_iff response, ?_⟩
  · intro pre msg rest hpre hmsg h
    subst h
    rw [decodeLoop_quiet_append pre _ hpre]
    simp [decodeLoop, hmsg]
  · intro pre err rest hpre he h
    subst h
    rw [decodeLoop_quiet_append pre _ hpre]
    simp [decodeLoop, he]


/-- The build of `dockerBuildError`: the second message carries the error, the
third is left unread. -/
theorem buildDockerfile_first_error_witness :
    sampleUtils.dockerfile "0.1482.0" "1.7" "latest" false = .ok "FROM latest 0.1482.0 1.7" ∧
    ((sampleStager dockerBuildError).buildDockerfile sampleUtils).err =
      some (GoError.errorf "build failure: no space left on device") ∧
    ((sampleStager dockerBuildError).buildDockerfile sampleUtils).unread =
      [Decoded.message "later"] :=
  ⟨rfl,
    (buildDockerfile_first_error sampleUtils (sampleStager dockerBuildError)
      "FROM latest 0.1482.0 1.7" "FROM latest 0.1482.0 1.7"
      [.message "", .message "no space left on device", .message "later"] rfl rfl rfl).1
      [.message ""] "no space left on device" [.message "later"]
      (by intro x hx; simpa using hx) (by decide) rfl⟩

/-! ## What `Stage` logs -/

theorem buildDockerfile_log (u : Utils) (s : Stager) (e : Event)
    (h : e ∈ (s.buildDockerfile u).log) :
    (∃ t o, e = Event.imageBuild t o) ∨ e = Event.bodyClose := by
  unfold Stager.buildDockerfile at h
  split at h
  · simp at h
  · split at h
    · simp at h
    · dsimp only at h
      split at h
      · simp at h
        exact Or.inl ⟨_, _, h⟩
      · simp at h
        rcases h with h | h
        · exact Or.inl ⟨_, _, h⟩
        · exact Or.inr h

theorem buildDockerfile_no_create (u : Utils) (s : Stager) (name : String)
    (cfg : ContainerConfig) : Event.containerCreate name cfg ∉ (s.buildDockerfile u).log := by
  intro h
  rcases buildDockerfile_log u s _ h with ⟨t, o, h⟩ | h <;> cases h

theorem Create_events (c : Container) (d : Docker) (err : Option GoError) :
    (c.Create d err).2.2 = [Event.containerCreate c.Name c.Config] := by
  unfold Container.Create
  split <;> rfl

/-- The container `Stage` asks the engine to create is `stageContainer` on the
environment made from the two marshalled descriptors. -/
theorem Stage_created (u : Utils) (s : Stager) (config : StageConfig) (color : Colorizer)
    (name : String) (cfg : ContainerConfig)
    (h : Event.containerCreate name cfg ∈ (s.Stage u config color).log) :
    ∃ vcapServices,
      marshalServices (stageServices config.AppConfig.Services) = .ok vcapServices ∧
      cfg = (stageContainer config
        (stageEnv (stageApplication config.AppConfig.Name).marshal vcapServices)).Config := by
  have hb := buildDockerfile_no_create u s name cfg
  unfold Stager.Stage at h
  simp only [] at h
  split at h
  · simp [Frame.ret, hb] at h
  · split at h
    · simp [Frame.ret, hb] at h
    · rename_i vs hvs
      refine ⟨vs, hvs, ?_⟩
      generalize hc : Container.Create s.Docker (stageContainer config
        (stageEnv (stageApplication config.AppConfig.Name).marshal vs)) none = created at h
      have hev := Create_events (stageContainer config
        (stageEnv (stageApplication config.AppConfig.Name).marshal vs)) s.Docker none
      rw [hc] at hev
      obtain ⟨cont, err, ev⟩ := created
      simp only at hev h
      subst hev
      repeat' split at h
      all_goals
        simp only [Frame.ret, Frame.push, deferRemoveAfterCopy, deferLogsClose,
          Container.RemoveAfterCopy, Container.Remove, List.foldl_cons, List.foldl_nil] at h
      all_goals
        simp [hb] at h
      all_goals exact h.2

/-- When the image is built and the services are marshalled, `Stage` asks the
engine to create its container. -/
theorem Stage_creates (u : Utils) (s : Stager) (config : StageConfig) (color : Colorizer)
    (vcapServices : String) (hb : (s.buildDockerfile u).err = none)
    (hvs : marshalServices (stageServices config.AppConfig.Services) = .ok vcapServices) :
    Event.containerCreate (config.AppConfig.Name ++ "-stage")
      (stageContainer config
        (stageEnv (stageApplication config.AppConfig.Name).marshal vcapServices)).Config
      ∈ (s.Stage u config color).log := by
  unfold Stager.Stage
  simp only [hb, hvs]
  generalize hc : Container.Create s.Docker (stageContainer config
    (stageEnv (stageApplication config.AppConfig.Name).marshal vcapServices)) none = created
  have hev := Create_events (stageContainer config
    (stageEnv (stageApplication config.AppConfig.Name).marshal vcapServices)) s.Docker none
  rw [hc] at hev
  obtain ⟨cont, err, ev⟩ := created
  simp only at hev
  subst hev
  repeat' split
  all_goals
    simp only [Frame.ret, Frame.push, deferRemoveAfterCopy, deferLogsClose,
      Container.RemoveAfterCopy, Container.Remove, List.foldl_cons, List.foldl_nil]
  all_goals
    simp [stageContainer]

/-! ## Entrypoint -/

theorem stringsJoin_append_head (x y : String) (l : List String) (sep : String) :
    stringsJoin ((x ++ y) :: l) sep = x ++ stringsJoin (y :: l) sep := by
  cases l with
  | nil => rfl
  | cons b l => simp only [stringsJoin, String.append_assoc]

theorem intercalate_go_eq (sep : String) (l : List String) (acc : String) :
    String.intercalate.go acc sep l = stringsJoin (acc :: l) sep := by
  induction l generalizing acc with
  | nil => rfl
  | cons a l ih =>
    rw [String.intercalate.go, ih, String.append_assoc, stringsJoin_append_head,
      stringsJoin_append_head]
    simp only [stringsJoin, String.append_assoc]

/-- The model of `strings.Join` is the library's `String.intercalate`. -/
theorem stringsJoin_eq_intercalate (l : List String) (sep : String) :
    stringsJoin l sep = sep.intercalate l := by
  cases l with
  | nil => rfl
  | cons a l => rw [String.intercalate, intercalate_go_eq]

/-- Claim C5. The entrypoint of every container `Stage` asks the engine to
create is the builder, `-buildpackOrder`, the buildpacks of the request joined
with commas in their order, and `-skipDetect=true` when the request has exactly
one buildpack, `-skipDetect=false` otherwise. -/
theorem Stage_entrypoint (u : Utils) (s : Stager) (config : StageConfig) (color : Colorizer)
    (name : String) (cfg : ContainerConfig)
    (h : Event.containerCreate name cfg ∈ (s.Stage u config color).log) :
    cfg.Entrypoint =
      ["/tmp/lifecycle/builder", "-buildpackOrder", ",".intercalate config.Buildpacks,
       if config.Buildpacks.length = 1 then "-skipDetect=true" else "-skipDetect=false"] := by
  obtain ⟨vs, -, hcfg⟩ := Stage_created u s config color name cfg h
  subst hcfg
  simp only [stageContainer, stringsJoin_eq_intercalate, fmtBool]
  by_cases h1 : config.Buildpacks.length = 1
  · simp [h1]
  · simp [h1]

/-- The request `sampleConfig` on an engine that succeeds: a container is
created, and its entrypoint skips detection for the single buildpack. -/
theorem Stage_entrypoint_witness :
    Event.containerCreate "app-stage"
        (stageContainer sampleConfig
          (stageEnv (stageApplication "app").marshal "\x7b\x7d")).Config
      ∈ ((sampleStager sampleDocker).Stage sampleUtils sampleConfig plain).log ∧
    (stageContainer sampleConfig
        (stageEnv (stageApplication "app").marshal "\x7b\x7d")).Config.Entrypoint =
      ["/tmp/lifecycle/builder", "-buildpackOrder", ",".intercalate sampleConfig.Buildpacks,
       if sampleConfig.Buildpacks.length = 1 then "-skipDetect=true" else "-skipDetect=false"] :=
  ⟨by set_option maxRecDepth 100000 in decide,
    Stage_entrypoint sampleUtils (sampleStager sampleDocker) sampleConfig plain "app-stage" _
      (by set_option maxRecDepth 100000 in decide)⟩

/-! ## Environment -/

theorem foldl_insert_lookup (entries : List (Sigma fun _ : String => String))
    (hnd : entries.NodupKeys) (r : GoMap) (k : String) :
    (entries.foldl (fun r e => r.insert e.1 e.2) r).lookup k =
      match List.dlookup k entries with
      | some v => some v
      | none => r.lookup k := by
  induction entries generalizing r with
  | nil => simp
  | cons e entries ih =>
    obtain ⟨hk, hnd'⟩ := List.nodupKeys_cons.1 hnd
    rw [List.foldl_cons, ih hnd']
    obtain ⟨a, b⟩ := e
    by_cases hka : k = a
    · subst hka
      have : List.dlookup k entries = none := List.dlookup_eq_none.2 hk
      simp [this]
    · rw [List.dlookup_cons_ne entries ⟨a, b⟩ hka, AList.lookup_insert_ne hka]

/-- The value of a key in the merge of three layers is the one of the last
layer that has the key. -/
theorem mergeMaps_lookup (baseline staging user : GoMap) (k : String) :
    (mergeMaps [baseline, staging, user]).lookup k =
      match user.lookup k with
      | some v => some v
      | none =>
        match staging.lookup k with
        | some v => some v
        | none => baseline.lookup k := by
  simp only [mergeMaps, List.foldl_cons, List.foldl_nil]
  rw [foldl_insert_lookup _ user.nodupKeys, foldl_insert_lookup _ staging.nodupKeys,
    foldl_insert_lookup _ baseline.nodupKeys]
  simp only [AList.lookup, AList.lookup_empty]
  cases List.dlookup k baseline.entries <;> rfl

theorem mem_mapToEnv (env : GoMap) (e : String) :
    e ∈ mapToEnv env ↔ ∃ k v, env.lookup k = some v ∧ e = k ++ "=" ++ v := by
  simp only [mapToEnv, List.mem_map]
  constructor
  · rintro ⟨⟨k, v⟩, hmem, rfl⟩
    exact ⟨k, v, AList.mem_lookup_iff.2 hmem, rfl⟩
  · rintro ⟨k, v, hl, rfl⟩
    exact ⟨⟨k, v⟩, AList.mem_lookup_iff.1 hl, rfl⟩

/-- Claim C6. Merging any three layers gives each key the value of the
highest layer that has it (user over staging over baseline), so a key of one
layer keeps that layer's value; and the environment of every container `Stage`
asks the engine to create is the flattening of the merge of the baseline
`env`, `AppConfig.StagingEnv` and `AppConfig.Env`: its entries are the
`KEY=value` of exactly the keys and values of that merge. -/
theorem Stage_env_precedence (u : Utils) (s : Stager) (config : StageConfig) (color : Colorizer)
    (name : String) (cfg : ContainerConfig)
    (h : Event.containerCreate name cfg ∈ (s.Stage u config color).log) :
    (∀ (baseline staging user : GoMap) (k : String),
      (mergeMaps [baseline, staging, user]).lookup k =
        match user.lookup k with
        | some v => some v
        | none =>
          match staging.lookup k with
          | some v => some v
          | none => baseline.lookup k) ∧
    ∃ vcapServices,
      marshalServices (stageServices config.AppConfig.Services) = .ok vcapServices ∧
      cfg.Env = mapToEnv (mergeMaps
        [stageEnv (stageApplication config.AppConfig.Name).marshal vcapServices,
         config.AppConfig.StagingEnv, config.AppConfig.Env]) ∧
      ∀ e, e ∈ cfg.Env ↔ ∃ k v, e = k ++ "=" ++ v ∧
        (match config.AppConfig.Env.lookup k with
          | some x => some x
          | none =>
            match config.AppConfig.StagingEnv.lookup k with
            | some x => some x
            | none =>
              (stageEnv (stageApplication config.AppConfig.Name).marshal vcapServices).lookup k)
          = some v := by
  refine ⟨mergeMaps_lookup, ?_⟩
  obtain ⟨vs, hvs, hcfg⟩ := Stage_created u s config color name cfg h
  subst hcfg
  refine ⟨vs, hvs, rfl, ?_⟩
  intro e
  simp only [stageContainer]
  rw [mem_mapToEnv]
  constructor
  · rintro ⟨k, v, hl, rfl⟩
    exact ⟨k, v, rfl, by rw [← mergeMaps_lookup]; exact hl⟩
  · rintro ⟨k, v, rfl, hl⟩
    exact ⟨k, v, by rw [mergeMaps_lookup]; exact hl, rfl⟩

/-- The request `layeredConfig`: the container is created, `LANG` has the
user's value and not the others, and the keys of a single layer are there. -/
theorem Stage_env_precedence_witness :
    Event.containerCreate "app-stage"
        (stageContainer layeredConfig
          (stageEnv (stageApplication "app").marshal "\x7b\x7d")).Config
      ∈ ((sampleStager sampleDocker).Stage sampleUtils layeredConfig plain).log ∧
    "LANG=de_DE.UTF-8" ∈ (stageContainer layeredConfig
        (stageEnv (stageApplication "app").marshal "\x7b\x7d")).Config.Env ∧
    "BP_DEBUG=1" ∈ (stageContainer layeredConfig
        (stageEnv (stageApplication "app").marshal "\x7b\x7d")).Config.Env ∧
    "HOME=/home/vcap" ∈ (stageContainer layeredConfig
        (stageEnv (stageApplication "app").marshal "\x7b\x7d")).Config.Env := by
  have hmem : Event.containerCreate "app-stage"
        (stageContainer layeredConfig
          (stageEnv (stageApplication "app").marshal "\x7b\x7d")).Config
      ∈ ((sampleStager sampleDocker).Stage sampleUtils layeredConfig plain).log := by
    set_option maxRecDepth 100000 in decide
  obtain ⟨-, vs, hvs, -, hiff⟩ :=
    Stage_env_precedence sampleUtils (sampleStager sampleDocker) layeredConfig plain _ _ hmem
  have hvs' : (Except.ok "\x7b\x7d" : Except GoError String) = Except.ok vs := hvs
  cases hvs'
  refine ⟨hmem, (hiff _).2 ⟨"LANG", "de_DE.UTF-8", by decide, by decide⟩,
    (hiff _).2 ⟨"BP_DEBUG", "1", by decide, by decide⟩,
    (hiff _).2 ⟨"HOME", "/home/vcap", by decide, by decide⟩⟩

/-! ## Service bindings -/

theorem stageEnv_lookup_services (vcapApp vcapServices : String) :
    (stageEnv vcapApp vcapServices).lookup "VCAP_SERVICES" = some vcapServices := by
  simp [stageEnv, mapLiteral]

theorem stageEnv_lookup_application (vcapApp vcapServices : String) :
    (stageEnv vcapApp vcapServices).lookup "VCAP_APPLICATION" = some vcapApp := by
  simp [stageEnv, mapLiteral]

theorem marshalServices_of_empty (services : Services)
    (h : ∀ m, services = some m → m.entries.length = 0) :
    marshalServices (stageServices services) = .ok "\x7b\x7d" := by
  cases services with
  | none => rfl
  | some m =>
    have hm : m.entries = [] := List.length_eq_zero.1 (h m rfl)
    simp only [stageServices, marshalServices, hm, List.map_nil, marshalMembers]
    rfl

/-- Claim C7. When `AppConfig.Services` is nil or has no entry: the text `Stage`
marshals for it is the empty object and not `null`, and the baseline map holds
it under `VCAP_SERVICES`; once the image is built, `Stage` does not fail on the
services but asks the engine to create its container, with the environment made
from that baseline; the environment of every container `Stage` asks for is made
from that baseline, and it has the entry `VCAP_SERVICES` with the empty object
unless `StagingEnv` or `Env` declares the key. -/
theorem Stage_services_never_null (u : Utils) (s : Stager) (config : StageConfig)
    (color : Colorizer)
    (h : ∀ m, config.AppConfig.Services = some m → m.entries.length = 0) :
    marshalServices (stageServices config.AppConfig.Services) = .ok "\x7b\x7d" ∧
    marshalServices (stageServices config.AppConfig.Services) ≠ .ok "null" ∧
    (∀ vcapApp, (stageEnv vcapApp "\x7b\x7d").lookup "VCAP_SERVICES" = some "\x7b\x7d") ∧
    ((s.buildDockerfile u).err = none →
      Event.containerCreate (config.AppConfig.Name ++ "-stage")
        (stageContainer config
          (stageEnv (stageApplication config.AppConfig.Name).marshal "\x7b\x7d")).Config
        ∈ (s.Stage u config color).log) ∧
    (∀ (name : String) (cfg : ContainerConfig),
      Event.containerCreate name cfg ∈ (s.Stage u config color).log →
      cfg.Env = mapToEnv (mergeMaps
        [stageEnv (stageApplication config.AppConfig.Name).marshal "\x7b\x7d",
         config.AppConfig.StagingEnv, config.AppConfig.Env]) ∧
      (config.AppConfig.StagingEnv.lookup "VCAP_SERVICES" = none →
        config.AppConfig.Env.lookup "VCAP_SERVICES" = none →
        "VCAP_SERVICES=\x7b\x7d" ∈ cfg.Env)) := by
  have hm := marshalServices_of_empty config.AppConfig.Services h
  refine ⟨hm, ?_, fun vcapApp => stageEnv_lookup_services vcapApp _,
    fun hb => Stage_creates u s config color _ hb hm, ?_⟩
  · rw [hm]
    intro hnull
    injection hnull with hnull
    exact absurd hnull (by decide)
  · intro name cfg hmem
    obtain ⟨vs, hvs, hcfg⟩ := Stage_created u s config color name cfg hmem
    rw [hm] at hvs
    cases hvs
    have henv : cfg.Env = mapToEnv (mergeMaps
        [stageEnv (stageApplication config.AppConfig.Name).marshal "\x7b\x7d",
         config.AppConfig.StagingEnv, config.AppConfig.Env]) := by
      rw [hcfg]
      rfl
    refine ⟨henv, fun hstaging huser => ?_⟩
    rw [henv]
    refine (mem_mapToEnv _ _).2 ⟨"VCAP_SERVICES", "\x7b\x7d", ?_, rfl⟩
    rw [mergeMaps_lookup, hstaging, huser, stageEnv_lookup_services]

/-- The request `sampleConfig`, whose `Services` is nil, on the sample engine:
`Stage` asks for the container `app-stage`, and the environment it asks for
has `VCAP_SERVICES` with the empty object. -/
theorem Stage_services_never_null_witness :
    (∀ m, sampleConfig.AppConfig.Services = some m → m.entries.length = 0) ∧
    Event.containerCreate "app-stage"
        (stageContainer sampleConfig
          (stageEnv (stageApplication "app").marshal "\x7b\x7d")).Config
      ∈ ((sampleStager sampleDocker).Stage sampleUtils sampleConfig plain).log ∧
    "VCAP_SERVICES=\x7b\x7d" ∈ (stageContainer sampleConfig
        (stageEnv (stageApplication "app").marshal "\x7b\x7d")).Config.Env ∧
    "VCAP_SERVICES=null" ∉ (stageContainer sampleConfig
        (stageEnv (stageApplication "app").marshal "\x7b\x7d")).Config.Env := by
  have key := Stage_services_never_null sampleUtils (sampleStager sampleDocker) sampleConfig
    plain (fun _ hm => (nomatch hm))
  have hcreated := key.2.2.2.1 (by decide)
  exact ⟨fun _ hm => (nomatch hm), hcreated,
    (key.2.2.2.2 _ _ hcreated).2 (by decide) (by decide),
    by set_option maxRecDepth 100000 in decide⟩

/-! ## Application descriptor -/

/-- Claim C8, as amended. When neither `AppConfig.StagingEnv` nor
`AppConfig.Env` has the key `VCAP_APPLICATION`, the environment of every
container `Stage` asks the engine to create holds under `VCAP_APPLICATION` the
marshalled descriptor, a JSON object whose members `application_name` and
`name` are both the JSON string of `AppConfig.Name`. -/
theorem Stage_vcap_application (u : Utils) (s : Stager) (config : StageConfig)
    (color : Colorizer) (name : String) (cfg : ContainerConfig)
    (hstaging : config.AppConfig.StagingEnv.lookup "VCAP_APPLICATION" = none)
    (huser : config.AppConfig.Env.lookup "VCAP_APPLICATION" = none)
    (h : Event.containerCreate name cfg ∈ (s.Stage u config color).log) :
    (∃ env : GoMap, cfg.Env = mapToEnv env ∧
      env.lookup "VCAP_APPLICATION" =
        some (jsonObject (stageApplication config.AppConfig.Name).members)) ∧
    "VCAP_APPLICATION=" ++ jsonObject (stageApplication config.AppConfig.Name).members
      ∈ cfg.Env ∧
    (stageApplication config.AppConfig.Name).members.lookup "application_name" =
      some (jsonString config.AppConfig.Name) ∧
    (stageApplication config.AppConfig.Name).members.lookup "name" =
      some (jsonString config.AppConfig.Name) := by
  obtain ⟨vs, -, hcfg⟩ := Stage_created u s config color name cfg h
  have hl : (mergeMaps [stageEnv (stageApplication config.AppConfig.Name).marshal vs,
      config.AppConfig.StagingEnv, config.AppConfig.Env]).lookup "VCAP_APPLICATION" =
      some (jsonObject (stageApplication config.AppConfig.Name).members) := by
    rw [mergeMaps_lookup, hstaging, huser, stageEnv_lookup_application]
    rfl
  subst hcfg
  refine ⟨⟨_, rfl, hl⟩, ?_, ?_, ?_⟩
  · simp only [stageContainer]
    exact (mem_mapToEnv _ _).2 ⟨_, _, hl, rfl⟩
  · simp [vcapApplication.members, stageApplication, List.lookup]
  · simp [vcapApplication.members, stageApplication, List.lookup]

/-- The request `sampleConfig` declares no variable of its own. -/
theorem Stage_vcap_application_witness :
    sampleConfig.AppConfig.StagingEnv.lookup "VCAP_APPLICATION" = none ∧
    sampleConfig.AppConfig.Env.lookup "VCAP_APPLICATION" = none ∧
    "VCAP_APPLICATION=" ++ jsonObject (stageApplication "app").members
      ∈ (stageContainer sampleConfig
          (stageEnv (stageApplication "app").marshal "\x7b\x7d")).Config.Env :=
  ⟨by decide, by decide,
    (Stage_vcap_application sampleUtils (sampleStager sampleDocker) sampleConfig plain
      "app-stage" _ (by decide) (by decide)
      (by set_option maxRecDepth 100000 in decide)).2.1⟩

/-- Claim C8 fails as stated. The request `overridingConfig` declares
`VCAP_APPLICATION` in `AppConfig.Env`: the container is created with the
user's value under `VCAP_APPLICATION`, and the descriptor is not in its
environment. -/
theorem Stage_vcap_application_overridden :
    Event.containerCreate "app-stage"
        (stageContainer overridingConfig
          (stageEnv (stageApplication "app").marshal "\x7b\x7d")).Config
      ∈ ((sampleStager sampleDocker).Stage sampleUtils overridingConfig plain).log ∧
    "VCAP_APPLICATION=mine" ∈ (stageContainer overridingConfig
        (stageEnv (stageApplication "app").marshal "\x7b\x7d")).Config.Env ∧
    "VCAP_APPLICATION=" ++ (stageApplication "app").marshal ∉ (stageContainer overridingConfig
        (stageEnv (stageApplication "app").marshal "\x7b\x7d")).Config.Env := by
  set_option maxRecDepth 100000 in decide

/-! ## Cleanup on failure -/

theorem buildDockerfile_no_removal (u : Utils) (s : Stager) :
    removeAfterCopyCalls (s.buildDockerfile u).log = 0 ∧
      containerRemoves (s.buildDockerfile u).log = 0 := by
  unfold Stager.buildDockerfile
  split
  · exact ⟨rfl, rfl⟩
  · split
    · exact ⟨rfl, rfl⟩
    · dsimp only
      split <;> exact ⟨rfl, rfl⟩

/-- Claim C1, as amended. When `Stage` fails at one of the points container
create, `CopyToContainer`, `ContainerStart`, non-zero status of `ContainerWait`,
`CopyFromContainer`, it returns `Stream{}` and a non-nil error; the deferred
`cont.RemoveAfterCopy` runs once and asks the engine once to remove the
container when the failure comes after the create, and neither happens when
the create itself fails. -/
theorem Stage_cleanup_on_failure (u : Utils) (s : Stager) (config : StageConfig)
    (color : Colorizer) (p : FailurePoint) (h : FailsAt u s config p) :
    (s.Stage u config color).stream = {} ∧
    (s.Stage u config color).err ≠ none ∧
    removeAfterCopyCalls (s.Stage u config color).log = (if p = .create then 0 else 1) ∧
    containerRemoves (s.Stage u config color).log = (if p = .create then 0 else 1) := by
  obtain ⟨hb, vs, hvs, hp⟩ := h
  obtain ⟨hr, hc⟩ := buildDockerfile_no_removal u s
  have count_append : ∀ (q : Event → Bool) (l₁ l₂ : List Event),
      (l₁ ++ l₂).countP q = l₁.countP q + l₂.countP q := fun q l₁ l₂ => List.countP_append q l₁ l₂
  unfold removeAfterCopyCalls containerRemoves at *
  cases p with
  | create =>
    obtain ⟨err, he⟩ := hp
    simp [Stager.Stage, hb, hvs, Container.Create, he, Container.ID, Frame.ret, stageContainer,
      hr, hc] at *
  | push =>
    obtain ⟨id, err, hcr, hid, hpush⟩ := hp
    simp [Stager.Stage, hb, hvs, Container.Create, hcr, Container.ID, hid, hpush, Frame.ret,
      Frame.push, deferRemoveAfterCopy, Container.RemoveAfterCopy, Container.Remove,
      stageContainer, hr, hc, List.countP_cons, List.countP_nil] at *
  | start =>
    obtain ⟨id, err, hcr, hid, hpush, hstart⟩ := hp
    simp [Stager.Stage, hb, hvs, Container.Create, hcr, Container.ID, hid, hpush, hstart,
      Frame.ret, Frame.push, deferRemoveAfterCopy, Container.RemoveAfterCopy, Container.Remove,
      stageContainer, hr, hc, List.countP_cons, List.countP_nil] at *
  | wait =>
    obtain ⟨id, logs, status, hcr, hid, hpush, hstart, hlogs, hwait, hstatus⟩ := hp
    simp [Stager.Stage, hb, hvs, Container.Create, hcr, Container.ID, hid, hpush, hstart, hlogs,
      hwait, hstatus, Frame.ret, Frame.push, deferRemoveAfterCopy, deferLogsClose,
      Container.RemoveAfterCopy, Container.Remove,
      stageContainer, hr, hc, List.countP_cons, List.countP_nil] at *
  | pull =>
    obtain ⟨id, logs, err, hcr, hid, hpush, hstart, hlogs, hwait, hpull⟩ := hp
    simp [Stager.Stage, hb, hvs, Container.Create, hcr, Container.ID, hid, hpush, hstart, hlogs,
      hwait, hpull, Frame.ret, Frame.push, deferRemoveAfterCopy, deferLogsClose,
      Container.RemoveAfterCopy, Container.Remove,
      stageContainer, hr, hc, List.countP_cons, List.countP_nil] at *

/-- The sample engine failing at each of the five points in turn: the run fails
there, nothing is returned, and the container is removed once unless it was
never created. -/
theorem Stage_cleanup_on_failure_witness :
    (FailsAt sampleUtils (sampleStager (dockerFailingAt .create)) sampleConfig .create ∧
      ((sampleStager (dockerFailingAt .create)).Stage sampleUtils sampleConfig plain).stream = {} ∧
      containerRemoves
        ((sampleStager (dockerFailingAt .create)).Stage sampleUtils sampleConfig plain).log = 0) ∧
    (FailsAt sampleUtils (sampleStager (dockerFailingAt .push)) sampleConfig .push ∧
      ((sampleStager (dockerFailingAt .push)).Stage sampleUtils sampleConfig plain).stream = {} ∧
      containerRemoves
        ((sampleStager (dockerFailingAt .push)).Stage sampleUtils sampleConfig plain).log = 1) ∧
    (FailsAt sampleUtils (sampleStager (dockerFailingAt .start)) sampleConfig .start ∧
      ((sampleStager (dockerFailingAt .start)).Stage sampleUtils sampleConfig plain).stream = {} ∧
      containerRemoves
        ((sampleStager (dockerFailingAt .start)).Stage sampleUtils sampleConfig plain).log = 1) ∧
    (FailsAt sampleUtils (sampleStager (dockerFailingAt .wait)) sampleConfig .wait ∧
      ((sampleStager (dockerFailingAt .wait)).Stage sampleUtils sampleConfig plain).stream = {} ∧
      containerRemoves
        ((sampleStager (dockerFailingAt .wait)).Stage sampleUtils sampleConfig plain).log = 1) ∧
    (FailsAt sampleUtils (sampleStager (dockerFailingAt .pull)) sampleConfig .pull ∧
      ((sampleStager (dockerFailingAt .pull)).Stage sampleUtils sampleConfig plain).stream = {} ∧
      containerRemoves
        ((sampleStager (dockerFailingAt .pull)).Stage sampleUtils sampleConfig plain).log = 1) := by
  have hcreate : FailsAt sampleUtils (sampleStager (dockerFailingAt .create)) sampleConfig
      .create := ⟨by decide, "\x7b\x7d", rfl, _, rfl⟩
  have hpush : FailsAt sampleUtils (sampleStager (dockerFailingAt .push)) sampleConfig .push :=
    ⟨by decide, "\x7b\x7d", rfl, "c1", _, rfl, by decide, rfl⟩
  have hstart : FailsAt sampleUtils (sampleStager (dockerFailingAt .start)) sampleConfig
      .start := ⟨by decide, "\x7b\x7d", rfl, "c1", _, rfl, by decide, rfl, rfl⟩
  have hwait : FailsAt sampleUtils (sampleStager (dockerFailingAt .wait)) sampleConfig .wait :=
    ⟨by decide, "\x7b\x7d", rfl, "c1", 7, 1, rfl, by decide, rfl, rfl, rfl, rfl,
      by decide⟩
  have hpull : FailsAt sampleUtils (sampleStager (dockerFailingAt .pull)) sampleConfig .pull :=
    ⟨by decide, "\x7b\x7d", rfl, "c1", 7, _, rfl, by decide, rfl, rfl, rfl, rfl, rfl⟩
  have c := Stage_cleanup_on_failure sampleUtils _ sampleConfig plain _ hcreate
  have p := Stage_cleanup_on_failure sampleUtils _ sampleConfig plain _ hpush
  have s := Stage_cleanup_on_failure sampleUtils _ sampleConfig plain _ hstart
  have w := Stage_cleanup_on_failure sampleUtils _ sampleConfig plain _ hwait
  have l := Stage_cleanup_on_failure sampleUtils _ sampleConfig plain _ hpull
  exact ⟨⟨hcreate, c.1, c.2.2.2⟩, ⟨hpush, p.1, p.2.2.2⟩, ⟨hstart, s.1, s.2.2.2⟩,
    ⟨hwait, w.1, w.2.2.2⟩, ⟨hpull, l.1, l.2.2.2⟩⟩

/-- Claim C1 fails as stated at the first failure point. On the sample engine
refusing to create the container, `Stage` returns the engine's error, the
deferred `cont.RemoveAfterCopy` is not called and the engine is not asked to
remove anything: removal is invoked zero times, not once. -/
theorem Stage_create_failure_removes_nothing :
    (dockerFailingAt .create).ContainerCreate
        (stageContainer sampleConfig
          (stageEnv (stageApplication "app").marshal "\x7b\x7d")).Config "app-stage" =
      .error (.failure "no such image") ∧
    ((sampleStager (dockerFailingAt .create)).Stage sampleUtils sampleConfig plain).err =
      some (.failure "no such image") ∧
    removeAfterCopyCalls
      ((sampleStager (dockerFailingAt .create)).Stage sampleUtils sampleConfig plain).log = 0 ∧
    containerRemoves
      ((sampleStager (dockerFailingAt .create)).Stage sampleUtils sampleConfig plain).log = 0 ∧
    ¬ removeAfterCopyCalls
      ((sampleStager (dockerFailingAt .create)).Stage sampleUtils sampleConfig plain).log = 1 :=
  ⟨rfl, by decide, by decide, by decide, by decide⟩

/-! ## The archive on the failing exit of the extraction -/

/-- The deferred `cont.RemoveAfterCopy` of `Stage` never finds the raw archive
in the named result: every `return` statement has stored its own operand there
before the deferred call runs. -/
theorem Stage_deferred_never_sees_archive (u : Utils) (s : Stager) (config : StageConfig)
    (color : Colorizer) (id : String) (ref : Nat) :
    Event.removeAfterCopy id (some (.archive ref)) ∉ (s.Stage u config color).log := by
  intro h
  have hb : Event.removeAfterCopy id (some (.archive ref)) ∉ (s.buildDockerfile u).log := by
    intro h
    rcases buildDockerfile_log u s _ h with ⟨t, o, h⟩ | h <;> cases h
  unfold Stager.Stage at h
  simp only [] at h
  split at h
  · simp [Frame.ret, hb] at h
  · split at h
    · simp [Frame.ret, hb] at h
    · rename_i vs hvs
      generalize hc : Container.Create s.Docker (stageContainer config
        (stageEnv (stageApplication config.AppConfig.Name).marshal vs)) none = created at h
      have hev := Create_events (stageContainer config
        (stageEnv (stageApplication config.AppConfig.Name).marshal vs)) s.Docker none
      rw [hc] at hev
      obtain ⟨cont, err, ev⟩ := created
      simp only at hev h
      subst hev
      repeat' split at h
      all_goals
        simp only [Frame.ret, Frame.push, deferRemoveAfterCopy, deferLogsClose,
          Container.RemoveAfterCopy, Container.Remove, List.foldl_cons, List.foldl_nil] at h
      all_goals
        simp [hb] at h

/-- The deferred `cont.RemoveAfterCopy` of `Download` never finds the raw
archive in the named result either. -/
theorem Download_deferred_never_sees_archive (u : Utils) (s : Stager) (path : String)
    (id : String) (ref : Nat) :
    Event.removeAfterCopy id (some (.archive ref)) ∉ (s.Download u path).log := by
  intro h
  have hb : Event.removeAfterCopy id (some (.archive ref)) ∉ (s.buildDockerfile u).log := by
    intro h
    rcases buildDockerfile_log u s _ h with ⟨t, o, h⟩ | h <;> cases h
  unfold Stager.Download at h
  simp only [] at h
  split at h
  · simp [Frame.ret, hb] at h
  · generalize hc : Container.Create s.Docker
      { Name := filepathBase path, Config := { Image := "cflocal", Entrypoint := ["bash"] } }
      none = created at h
    have hev := Create_events
      { Name := filepathBase path, Config := { Image := "cflocal", Entrypoint := ["bash"] } }
      s.Docker none
    rw [hc] at hev
    obtain ⟨cont, err, ev⟩ := created
    simp only at hev h
    subst hev
    repeat' split at h
    all_goals
      simp only [Frame.ret, Frame.push, deferRemoveAfterCopy, deferLogsClose,
        Container.RemoveAfterCopy, Container.Remove, List.foldl_cons, List.foldl_nil] at h
    all_goals
      simp [hb] at h

/-- Claim C10, evaluated on the code. The engine hands over the archive 3 and
the extraction of the entry fails: in `Stage` and in `Download` the archive was
copied from the container, the error of the extraction is returned, and the
deferred `cont.RemoveAfterCopy` finds nil in the named result, not the archive,
so it removes the container at once and the archive is not closed. -/
theorem extraction_failure_hides_archive :
    (Event.copyFromContainer "c1" "/tmp/droplet"
        ∈ ((sampleStager sampleDocker).Stage utilsWithoutEntry sampleConfig plain).log ∧
      ((sampleStager sampleDocker).Stage utilsWithoutEntry sampleConfig plain).err =
        some (.failure "file not found") ∧
      Event.removeAfterCopy "c1" none
        ∈ ((sampleStager sampleDocker).Stage utilsWithoutEntry sampleConfig plain).log ∧
      Event.removeAfterCopy "c1" (some (.archive 3))
        ∉ ((sampleStager sampleDocker).Stage utilsWithoutEntry sampleConfig plain).log) ∧
    (Event.copyFromContainer "c1" "/home/vcap/app.zip"
        ∈ ((sampleStager sampleDocker).Download utilsWithoutEntry "/home/vcap/app.zip").log ∧
      ((sampleStager sampleDocker).Download utilsWithoutEntry "/home/vcap/app.zip").err =
        some (.failure "file not found") ∧
      Event.removeAfterCopy "c1" none
        ∈ ((sampleStager sampleDocker).Download utilsWithoutEntry "/home/vcap/app.zip").log ∧
      Event.removeAfterCopy "c1" (some (.archive 3))
        ∉ ((sampleStager sampleDocker).Download utilsWithoutEntry "/home/vcap/app.zip").log) := by
  set_option maxRecDepth 100000 in decide

end Local

namespace Cmd

/-! ## The loop over the buildpacks -/

theorem readBuildpacks_calls {σ : Type} (fs : FS σ) (l : List String)
    (z : AList fun _ : String => Stream) (st : σ) :
    ∀ c ∈ (readBuildpacks fs l z st).calls, ∃ p ok, c = Call.readFile p ok := by
  induction l generalizing z st with
  | nil => intro c hc; simp [readBuildpacks] at hc
  | cons b rest ih =>
    intro c hc
    unfold readBuildpacks at hc
    dsimp only at hc
    split at hc
    · exact ih _ _ c hc
    · split at hc
      · rcases List.mem_cons.1 hc with rfl | hc
        · exact ⟨_, _, rfl⟩
        · exact ih _ _ c hc
      · rcases List.mem_cons.1 hc with rfl | hc
        · exact ⟨_, _, rfl⟩
        · exact ih _ _ c hc

/-- The keys of the map after the loop: those it had, and the checksums of the
buildpacks that `ReadFile` reads, when its result depends on the path alone. -/
theorem readBuildpacks_keys {σ : Type} (fs : FS σ) (r : String → Except GoError (Nat × Int))
    (hdet : ∀ p st, (fs.ReadFile p st).1 = r p) (l : List String)
    (z : AList fun _ : String => Stream) (st : σ) (c : String) :
    c ∈ (readBuildpacks fs l z st).buildpackZips.keys ↔
      c ∈ z.keys ∨ ∃ b ∈ l, md5hex b = c ∧ succeeded (r b) = true := by
  induction l generalizing z st with
  | nil => simp [readBuildpacks]
  | cons b rest ih =>
    unfold readBuildpacks
    dsimp only
    split
    · rename_i hin
      rw [ih]
      have hbz : md5hex b ∈ z.keys := by
        rw [← AList.mem_keys, ← AList.lookup_isSome]
        exact hin
      constructor
      · rintro (h | ⟨b', hb', h⟩)
        · exact Or.inl h
        · exact Or.inr ⟨b', List.mem_cons_of_mem _ hb', h⟩
      · rintro (h | ⟨b', hb', h⟩)
        · exact Or.inl h
        · rcases List.mem_cons.1 hb' with rfl | hb'
          · exact Or.inl (h.1 ▸ hbz)
          · exact Or.inr ⟨b', hb', h⟩
    · have hr := hdet b st
      split
      · rename_i e st' heq
        rw [heq] at hr
        simp only at hr
        rw [ih]
        constructor
        · rintro (h | ⟨b', hb', h⟩)
          · exact Or.inl h
          · exact Or.inr ⟨b', List.mem_cons_of_mem _ hb', h⟩
        · rintro (h | ⟨b', hb', h⟩)
          · exact Or.inl h
          · rcases List.mem_cons.1 hb' with rfl | hb'
            · rw [← hr] at h
              simp [succeeded] at h
            · exact Or.inr ⟨b', hb', h⟩
      · rename_i zip size st' heq
        rw [heq] at hr
        simp only at hr
        rw [ih]
        have hk : ∀ x, x ∈ (z.insert (md5hex b) (NewStream zip size)).keys ↔
            x = md5hex b ∨ x ∈ z.keys := by
          intro x
          rw [← AList.mem_keys, AList.mem_insert, AList.mem_keys]
        rw [hk]
        constructor
        · rintro ((h | h) | ⟨b', hb', h⟩)
          · exact Or.inr ⟨b, List.mem_cons_self _ _, h.symm, by rw [← hr]; rfl⟩
          · exact Or.inl h
          · exact Or.inr ⟨b', List.mem_cons_of_mem _ hb', h⟩
        · rintro (h | ⟨b', hb', h⟩)
          · exact Or.inl (Or.inr h)
          · rcases List.mem_cons.1 hb' with rfl | hb'
            · exact Or.inl (Or.inl h.1.symm)
            · exact Or.inr ⟨b', hb', h⟩

/-- No call of `ReadFile` is for a checksum the map already has, and after a
call that succeeded none is for its checksum. -/
theorem readBuildpacks_reads {σ : Type} (fs : FS σ) (l : List String)
    (z : AList fun _ : String => Stream) (st : σ) :
    (∀ x ∈ readFileCalls (readBuildpacks fs l z st).calls, md5hex x.1 ∉ z.keys) ∧
    (readFileCalls (readBuildpacks fs l z st).calls).Pairwise
      (fun a b => a.2 = true → md5hex a.1 ≠ md5hex b.1) := by
  induction l generalizing z st with
  | nil => simp [readBuildpacks, readFileCalls]
  | cons b rest ih =>
    unfold readBuildpacks
    dsimp only
    split
    · exact ih _ _
    · rename_i hin
      have hbz : md5hex b ∉ z.keys := by
        rw [← AList.mem_keys, ← AList.lookup_isSome]
        exact hin
      split
      · rename_i e st' heq
        obtain ⟨h1, h2⟩ := ih z st'
        simp only [readFileCalls, List.mem_cons, List.pairwise_cons]
        refine ⟨?_, ?_, h2⟩
        · rintro x (rfl | hx)
          · exact hbz
          · exact h1 x hx
        · intro x _ hf
          cases hf
      · rename_i zip size st' heq
        obtain ⟨h1, h2⟩ := ih (z.insert (md5hex b) (NewStream zip size)) st'
        have hk : ∀ x, x ∈ (z.insert (md5hex b) (NewStream zip size)).keys ↔
            x = md5hex b ∨ x ∈ z.keys := by
          intro x
          rw [← AList.mem_keys, AList.mem_insert, AList.mem_keys]
        simp only [readFileCalls, List.mem_cons, List.pairwise_cons]
        refine ⟨?_, ?_, h2⟩
        · rintro x (rfl | hx)
          · exact hbz
          · exact fun hmem => h1 x hx ((hk _).2 (Or.inr hmem))
        · intro x hx _ heq'
          exact h1 x hx ((hk _).2 (Or.inl heq'.symm))

/-! ## What `Run` calls -/

theorem readFileCalls_append (a b : List Call) :
    readFileCalls (a ++ b) = readFileCalls a ++ readFileCalls b := by
  induction a with
  | nil => rfl
  | cons c a ih => cases c <;> simp [readFileCalls, ih]

theorem readFileCalls_other (l : List Call) (h : ∀ c ∈ l, c.other = true) :
    readFileCalls l = [] := by
  induction l with
  | nil => rfl
  | cons c l ih =>
    have hc := h c (List.mem_cons_self _ _)
    have hl := ih fun x hx => h x (List.mem_cons_of_mem _ hx)
    cases c <;> simp_all [readFileCalls, Call.other]

theorem close_other (hs : List Nat) : ∀ c ∈ hs.map Call.close, c.other = true := by
  intro c hc
  obtain ⟨h, -, rfl⟩ := List.mem_map.1 hc
  rfl

theorem makeAppDir_other {σ : Type} (s : Stage σ) (options : stageOptions) (st : σ) :
    ∀ c ∈ (s.makeAppDir options st).2.2, c.other = true := by
  intro c hc
  unfold Stage.makeAppDir at hc
  repeat' split at hc
  all_goals simp at hc
  all_goals rcases hc with rfl | rfl
  all_goals rfl

theorem warnForwarding_other {σ : Type} (s : Stage σ) (options : stageOptions) (st : σ) :
    ∀ c ∈ (s.warnForwarding options st).2, c.other = true := by
  intro c hc
  unfold Stage.warnForwarding at hc
  split at hc
  · simp at hc
    subst hc
    rfl
  · simp at hc

theorem streamOut_other {σ : Type} (s : Stage σ) (stream : Stream) (path : String) (st : σ) :
    ∀ c ∈ (s.streamOut stream path st).calls, c.other = true := by
  intro c hc
  unfold Stage.streamOut at hc
  split at hc
  · simp at hc
    subst hc
    rfl
  · simp [leave] at hc
    rcases hc with rfl | rfl | rfl <;> rfl

theorem readFileCalls_close (hs : List Nat) : readFileCalls (hs.map Call.close) = [] :=
  readFileCalls_other _ (close_other hs)

theorem readFileCalls_makeAppDir {σ : Type} (s : Stage σ) (options : stageOptions) (st : σ) :
    readFileCalls (s.makeAppDir options st).2.2 = [] :=
  readFileCalls_other _ (makeAppDir_other s options st)

theorem readFileCalls_warnForwarding {σ : Type} (s : Stage σ) (options : stageOptions)
    (st : σ) : readFileCalls (s.warnForwarding options st).2 = [] :=
  readFileCalls_other _ (warnForwarding_other s options st)

theorem readFileCalls_streamOut {σ : Type} (s : Stage σ) (stream : Stream) (path : String)
    (st : σ) : readFileCalls (s.streamOut stream path st).calls = [] :=
  readFileCalls_other _ (streamOut_other s stream path st)

/-- The calls of `ReadFile` in a run are those of the loop over the buildpacks,
when the run gets as far as the loop. -/
theorem Run_readFileCalls {σ : Type} (s : Stage σ) (args : List String) (st : σ) :
    readFileCalls (s.Run args st).calls = [] ∨
    ∃ l st', readFileCalls (s.Run args st).calls =
      readFileCalls (readBuildpacks s.FS l ∅ st').calls := by
  unfold Stage.Run
  dsimp only
  repeat' split
  all_goals
    simp only [leave, readFileCalls_append, readFileCalls_close, readFileCalls_makeAppDir,
      readFileCalls_warnForwarding, readFileCalls_streamOut]
  all_goals
    simp only [readFileCalls, List.append_nil, List.nil_append]
  all_goals first
    | exact Or.inl trivial
    | exact Or.inr ⟨_, _, by with_reducible rfl⟩

theorem openFileCalls_append (a b : List Call) :
    openFileCalls (a ++ b) = openFileCalls a ++ openFileCalls b := by
  induction a with
  | nil => rfl
  | cons c a ih => cases c <;> simp [openFileCalls, ih]

theorem stageCalls_append (a b : List Call) :
    stageCalls (a ++ b) = stageCalls a ++ stageCalls b := by
  induction a with
  | nil => rfl
  | cons c a ih => cases c <;> simp [stageCalls, ih]

theorem openFileCalls_other (l : List Call)
    (h : ∀ c ∈ l, c.other = true ∨ ∃ p ok, c = Call.readFile p ok) : openFileCalls l = [] := by
  induction l with
  | nil => rfl
  | cons c l ih =>
    have hc := h c (List.mem_cons_self _ _)
    have hl := ih fun x hx => h x (List.mem_cons_of_mem _ hx)
    cases c <;> simp_all [openFileCalls, Call.other]

theorem stageCalls_other (l : List Call)
    (h : ∀ c ∈ l, c.other = true ∨ ∃ p ok, c = Call.readFile p ok) : stageCalls l = [] := by
  induction l with
  | nil => rfl
  | cons c l ih =>
    have hc := h c (List.mem_cons_self _ _)
    have hl := ih fun x hx => h x (List.mem_cons_of_mem _ hx)
    cases c <;> simp_all [stageCalls, Call.other]

theorem openFileCalls_close (hs : List Nat) : openFileCalls (hs.map Call.close) = [] :=
  openFileCalls_other _ fun c hc => Or.inl (close_other hs c hc)

theorem stageCalls_close (hs : List Nat) : stageCalls (hs.map Call.close) = [] :=
  stageCalls_other _ fun c hc => Or.inl (close_other hs c hc)

theorem openFileCalls_makeAppDir {σ : Type} (s : Stage σ) (options : stageOptions) (st : σ) :
    openFileCalls (s.makeAppDir options st).2.2 = [] :=
  openFileCalls_other _ fun c hc => Or.inl (makeAppDir_other s options st c hc)

theorem stageCalls_makeAppDir {σ : Type} (s : Stage σ) (options : stageOptions) (st : σ) :
    stageCalls (s.makeAppDir options st).2.2 = [] :=
  stageCalls_other _ fun c hc => Or.inl (makeAppDir_other s options st c hc)

theorem openFileCalls_warnForwarding {σ : Type} (s : Stage σ) (options : stageOptions)
    (st : σ) : openFileCalls (s.warnForwarding options st).2 = [] :=
  openFileCalls_other _ fun c hc => Or.inl (warnForwarding_other s options st c hc)

theorem stageCalls_warnForwarding {σ : Type} (s : Stage σ) (options : stageOptions)
    (st : σ) : stageCalls (s.warnForwarding options st).2 = [] :=
  stageCalls_other _ fun c hc => Or.inl (warnForwarding_other s options st c hc)

theorem openFileCalls_streamOut {σ : Type} (s : Stage σ) (stream : Stream) (path : String)
    (st : σ) : openFileCalls (s.streamOut stream path st).calls = [] :=
  openFileCalls_other _ fun c hc => Or.inl (streamOut_other s stream path st c hc)

theorem stageCalls_streamOut {σ : Type} (s : Stage σ) (stream : Stream) (path : String)
    (st : σ) : stageCalls (s.streamOut stream path st).calls = [] :=
  stageCalls_other _ fun c hc => Or.inl (streamOut_other s stream path st c hc)

theorem openFileCalls_readBuildpacks {σ : Type} (fs : FS σ) (l : List String)
    (z : AList fun _ : String => Stream) (st : σ) :
    openFileCalls (readBuildpacks fs l z st).calls = [] :=
  openFileCalls_other _ fun c hc => Or.inr (readBuildpacks_calls fs l z st c hc)

theorem stageCalls_readBuildpacks {σ : Type} (fs : FS σ) (l : List String)
    (z : AList fun _ : String => Stream) (st : σ) :
    stageCalls (readBuildpacks fs l z st).calls = [] :=
  stageCalls_other _ fun c hc => Or.inr (readBuildpacks_calls fs l z st c hc)

/-- A configuration handed to `Stager.Stage` holds the map the loop over the
buildpacks of the loaded configuration left, and the cache was opened just once, at the path made from the
name; the flag `CacheEmpty` says whether the size reported is 0. -/
theorem Run_stage_config {σ : Type} (s : Stage σ) (args : List String) (st : σ)
    (config : StageConfig) (h : config ∈ stageCalls (s.Run args st).calls) :
    (∃ localYML st₁ st', s.Config.Load st = (.ok localYML, st₁) ∧
      config.BuildpackZips = (readBuildpacks s.FS
        ((withOptions (s.options args).1
            (s.Package.getAppConfig (s.options args).1.name localYML)).Buildpack ::
          (withOptions (s.options args).1
            (s.Package.getAppConfig (s.options args).1.name localYML)).Buildpacks)
        ∅ st').buildpackZips) ∧
    ∃ size, openFileCalls (s.Run args st).calls =
        [("./." ++ (s.options args).1.name ++ ".cache", some size)] ∧
      (config.CacheEmpty = true ↔ size = 0) := by
  unfold Stage.Run at h
  dsimp only at h
  repeat' split at h
  all_goals
    simp only [leave, stageCalls_append, stageCalls_close, stageCalls_makeAppDir,
      stageCalls_warnForwarding, stageCalls_streamOut, stageCalls_readBuildpacks] at h
  all_goals
    simp only [stageCalls, List.append_nil, List.nil_append, List.not_mem_nil,
      List.mem_singleton] at h
  all_goals
    subst h
    refine ⟨?_, ?_⟩
  all_goals first
    | (simp only [*]
       exact ⟨_, _, _, rfl, rfl⟩)
    | (simp only [Stage.Run, *, leave, openFileCalls_append, openFileCalls_close,
        openFileCalls_makeAppDir, openFileCalls_warnForwarding, openFileCalls_streamOut,
        openFileCalls_readBuildpacks]
       simp [openFileCalls])

/-! ## Unreadable buildpacks do not fail the run -/

theorem ok_of_succeeded {α σ : Type} (r : Except GoError α × σ) (h : succeeded r.1 = true) :
    ∃ a st, r = (.ok a, st) := by
  obtain ⟨_ | a, st⟩ := r
  · simp [succeeded] at h
  · exact ⟨a, st, rfl⟩

theorem none_of_fst_none {σ : Type} (r : Option GoError × σ) (h : r.1 = none) :
    ∃ st, r = (none, st) := by
  obtain ⟨e, st⟩ := r
  simp only at h
  subst h
  exact ⟨st, rfl⟩

theorem makeAppDir_ok {σ : Type} (s : Stage σ) (options : stageOptions) (st : σ)
    (habs : ∀ p st, succeeded (s.FS.Abs p st).1 = true)
    (hmk : ∀ p st, (s.FS.MakeDirAll p st).1 = none) :
    ∃ appDir, (s.makeAppDir options st).1 = .ok appDir := by
  unfold Stage.makeAppDir
  split
  · obtain ⟨appDir, st1, ha⟩ := ok_of_succeeded _ (habs options.appDir st)
    obtain ⟨st2, hm⟩ := none_of_fst_none _ (hmk appDir st1)
    simp only [ha, hm]
    exact ⟨_, rfl⟩
  · exact ⟨_, rfl⟩

theorem streamOut_ok {σ : Type} (s : Stage σ) (stream : Stream) (path : String) (st : σ)
    (hw : ∀ p st, succeeded (s.FS.WriteFile p st).1 = true)
    (ho : ∀ d f st, (s.Package.Out d f st).1 = none) :
    (s.streamOut stream path st).err = none := by
  unfold Stage.streamOut
  obtain ⟨file, st1, hf⟩ := ok_of_succeeded _ (hw path st)
  simp only [hf, leave]
  exact ho _ _ _

/-- When every collaborator other than `ReadFile` succeeds, `Run` returns nil,
whatever `ReadFile` answers. -/
theorem Run_succeeds {σ : Type} (s : Stage σ) (args : List String) (st : σ)
    (h : OthersSucceed s args) : (s.Run args st).err = none := by
  obtain ⟨hopt, hload, htar, habs, hmk, hget, hopen, hstage, hw, ho⟩ := h
  rcases hop : s.options args with ⟨options, e⟩
  rw [hop] at hopt
  simp only at hopt
  subst hopt
  obtain ⟨localYML, st1, h1⟩ := ok_of_succeeded _ (hload st)
  obtain ⟨appTar, st2, h2⟩ := ok_of_succeeded _ (htar options.app st1)
  obtain ⟨appDir, h3⟩ := makeAppDir_ok s options st2 habs hmk
  unfold Stage.Run
  simp only [hop, h1, h2, h3]
  obtain ⟨remote, st4, h4⟩ := ok_of_succeeded _ (hget options.serviceApp options.forwardApp
    (readBuildpacks s.FS
      ((withOptions options (s.Package.getAppConfig options.name localYML)).Buildpack ::
        (withOptions options (s.Package.getAppConfig options.name localYML)).Buildpacks)
      ∅ (s.makeAppDir options st2).2.1).state)
  simp only [h4]
  obtain ⟨⟨cache, cacheSize⟩, st5, h5⟩ := ok_of_succeeded _
    (hopen ("./." ++ options.name ++ ".cache") (s.warnForwarding options st4).1)
  simp only [h5]
  split
  · rename_i err st6 heq
    have hs := congrArg (fun r => succeeded r.1) heq
    dsimp only at hs
    rw [hstage] at hs
    cases hs
  · rename_i droplet st6 heq
    simp only [streamOut_ok s droplet _ st6 hw ho, leave]

/-- When every collaborator other than `ReadFile` succeeds, `Run` calls
`Stager.Stage` exactly once, whatever `ReadFile` answers. -/
theorem Run_calls_stage {σ : Type} (s : Stage σ) (args : List String) (st : σ)
    (h : OthersSucceed s args) : ∃ config, stageCalls (s.Run args st).calls = [config] := by
  obtain ⟨hopt, hload, htar, habs, hmk, hget, hopen, hstage, hw, ho⟩ := h
  rcases hop : s.options args with ⟨options, e⟩
  rw [hop] at hopt
  simp only at hopt
  subst hopt
  obtain ⟨localYML, st1, h1⟩ := ok_of_succeeded _ (hload st)
  obtain ⟨appTar, st2, h2⟩ := ok_of_succeeded _ (htar options.app st1)
  obtain ⟨appDir, h3⟩ := makeAppDir_ok s options st2 habs hmk
  unfold Stage.Run
  simp only [hop, h1, h2, h3]
  obtain ⟨remote, st4, h4⟩ := ok_of_succeeded _ (hget options.serviceApp options.forwardApp
    (readBuildpacks s.FS
      ((withOptions options (s.Package.getAppConfig options.name localYML)).Buildpack ::
        (withOptions options (s.Package.getAppConfig options.name localYML)).Buildpacks)
      ∅ (s.makeAppDir options st2).2.1).state)
  simp only [h4]
  obtain ⟨⟨cache, cacheSize⟩, st5, h5⟩ := ok_of_succeeded _
    (hopen ("./." ++ options.name ++ ".cache") (s.warnForwarding options st4).1)
  simp only [h5]
  split
  · rename_i err st6 heq
    have hs := congrArg (fun r => succeeded r.1) heq
    dsimp only at hs
    rw [hstage] at hs
    cases hs
  · rename_i droplet st6 heq
    simp only [streamOut_ok s droplet _ st6 hw ho, leave, stageCalls_append, stageCalls_close,
      stageCalls_makeAppDir, stageCalls_warnForwarding, stageCalls_streamOut,
      stageCalls_readBuildpacks]
    simp only [stageCalls, List.append_nil, List.nil_append]
    exact ⟨_, rfl⟩

/-! ## Deduplication of the buildpacks -/

theorem readBuildpacks_size {σ : Type} (fs : FS σ) (r : String → Except GoError (Nat × Int))
    (hdet : ∀ p st, (fs.ReadFile p st).1 = r p) (l : List String) (st : σ)
    (hall : ∀ b ∈ l, succeeded (r b) = true) :
    (readBuildpacks fs l ∅ st).buildpackZips.keys.length = (l.map md5hex).dedup.length := by
  apply List.Perm.length_eq
  rw [List.perm_ext_iff_of_nodup (AList.keys_nodup _) (List.nodup_dedup _)]
  intro c
  rw [readBuildpacks_keys fs r hdet, List.mem_dedup, List.mem_map]
  constructor
  · rintro (h | ⟨b, hb, h, -⟩)
    · simp at h
    · exact ⟨b, hb, h⟩
  · rintro ⟨b, hb, h⟩
    exact Or.inr ⟨b, hb, h, hall b hb⟩

/-- Claim C2. On a filesystem whose `ReadFile` result depends on the path alone,
in every run of `Run`: the map `buildpackZips` that `Run` hands to `Stager.Stage`
is built from the configuration `Config.Load` returned, over its `Buildpack`
followed by its `Buildpacks` (after the `-b` options); its keys are exactly the
checksums of the entries that `ReadFile` reads, and when it reads every entry
there are as many keys as distinct checksums in the list. When the other
collaborators succeed, `Run` returns nil and calls `Stager.Stage` exactly once,
whichever buildpacks are unreadable. The same keys hold for the loop over any
list. -/
theorem Run_buildpackZips_keys {σ : Type} (s : Stage σ)
    (r : String → Except GoError (Nat × Int))
    (hdet : ∀ p st, (s.FS.ReadFile p st).1 = r p) (args : List String) (st : σ) :
    (∀ config ∈ stageCalls (s.Run args st).calls,
      ∃ localYML st₁, s.Config.Load st = (.ok localYML, st₁) ∧
        (∀ c, c ∈ config.BuildpackZips.keys ↔
          ∃ b ∈ (withOptions (s.options args).1
                (s.Package.getAppConfig (s.options args).1.name localYML)).Buildpack ::
              (withOptions (s.options args).1
                (s.Package.getAppConfig (s.options args).1.name localYML)).Buildpacks,
            md5hex b = c ∧ succeeded (r b) = true) ∧
        ((∀ b ∈ (withOptions (s.options args).1
                (s.Package.getAppConfig (s.options args).1.name localYML)).Buildpack ::
              (withOptions (s.options args).1
                (s.Package.getAppConfig (s.options args).1.name localYML)).Buildpacks,
            succeeded (r b) = true) →
          config.BuildpackZips.keys.length =
            (((withOptions (s.options args).1
                (s.Package.getAppConfig (s.options args).1.name localYML)).Buildpack ::
              (withOptions (s.options args).1
                (s.Package.getAppConfig (s.options args).1.name localYML)).Buildpacks).map
              md5hex).dedup.length)) ∧
    (OthersSucceed s args →
      (s.Run args st).err = none ∧ ∃ config, stageCalls (s.Run args st).calls = [config]) ∧
    (∀ (l : List String) (st' : σ),
      (∀ c, c ∈ (readBuildpacks s.FS l ∅ st').buildpackZips.keys ↔
        ∃ b ∈ l, md5hex b = c ∧ succeeded (r b) = true) ∧
      ((∀ b ∈ l, succeeded (r b) = true) →
        (readBuildpacks s.FS l ∅ st').buildpackZips.keys.length =
          (l.map md5hex).dedup.length)) := by
  have hloop : ∀ (l : List String) (st' : σ),
      (∀ c, c ∈ (readBuildpacks s.FS l ∅ st').buildpackZips.keys ↔
        ∃ b ∈ l, md5hex b = c ∧ succeeded (r b) = true) ∧
      ((∀ b ∈ l, succeeded (r b) = true) →
        (readBuildpacks s.FS l ∅ st').buildpackZips.keys.length =
          (l.map md5hex).dedup.length) := by
    intro l st'
    refine ⟨fun c => ?_, readBuildpacks_size s.FS r hdet l st'⟩
    rw [readBuildpacks_keys s.FS r hdet]
    simp
  refine ⟨?_, fun h => ⟨Run_succeeds s args st h, Run_calls_stage s args st h⟩, hloop⟩
  intro config hc
  obtain ⟨localYML, st₁, st', hload, hz⟩ := (Run_stage_config s args st config hc).1
  refine ⟨localYML, st₁, hload, ?_⟩
  rw [hz]
  exact hloop _ st'

/-- The sample command with `./gone.zip` unreadable, on the buildpacks `./a.zip`,
`./gone.zip`, `./a.zip`: `ReadFile` depends on the path alone and the other
collaborators succeed; the run returns nil and hands `Stager.Stage` one
configuration, whose map has the checksum of `./a.zip` as a key and not that
of `./gone.zip`. -/
theorem Run_buildpackZips_keys_witness :
    (∀ p st, ((sampleStage (fun p => p != "./gone.zip") 0).FS.ReadFile p st).1 =
      if p != "./gone.zip" then .ok (2, 2048) else .error (.failure "no such file")) ∧
    OthersSucceed (sampleStage (fun p => p != "./gone.zip") 0) ["stage", "app"] ∧
    ((sampleStage (fun p => p != "./gone.zip") 0).Run ["stage", "app"] 0).err = none ∧
    ∃ config,
      stageCalls ((sampleStage (fun p => p != "./gone.zip") 0).Run ["stage", "app"] 0).calls =
        [config] ∧
      md5hex "./a.zip" ∈ config.BuildpackZips.keys ∧
      md5hex "./gone.zip" ∉ config.BuildpackZips.keys := by
  have hdet : ∀ p st, ((sampleStage (fun p => p != "./gone.zip") 0).FS.ReadFile p st).1 =
      if p != "./gone.zip" then .ok (2, 2048) else .error (.failure "no such file") :=
    fun _ _ => rfl
  have hothers : OthersSucceed (sampleStage (fun p => p != "./gone.zip") 0) ["stage", "app"] :=
    ⟨rfl, fun _ => rfl, fun _ _ => rfl, fun _ _ => rfl, fun _ _ => rfl, fun _ _ _ => rfl,
      fun _ _ => rfl, fun _ _ => rfl, fun _ _ => rfl, fun _ _ _ => rfl⟩
  have key := Run_buildpackZips_keys (sampleStage (fun p => p != "./gone.zip") 0) _ hdet
    ["stage", "app"] 0
  obtain ⟨herr, config, hcalls⟩ := key.2.1 hothers
  obtain ⟨localYML, st₁, -, hkeys, -⟩ := key.1 config (by rw [hcalls]; exact List.mem_singleton.2 rfl)
  refine ⟨hdet, hothers, herr, config, hcalls, ?_, ?_⟩
  · exact (hkeys _).2 ⟨"./a.zip", List.mem_cons_self _ _, rfl, rfl⟩
  · intro hmem
    obtain ⟨b, hb, hsum, hread⟩ := (hkeys _).1 hmem
    have hb' : b = "./a.zip" ∨ b = "./gone.zip" := by
      have hb2 : b ∈ ["./a.zip", "./gone.zip", "./a.zip"] := hb
      simp only [List.mem_cons, List.mem_singleton, List.not_mem_nil, or_false] at hb2
      rcases hb2 with h | h | h
      · exact Or.inl h
      · exact Or.inr h
      · exact Or.inl h
    rcases hb' with rfl | rfl
    · exact absurd hsum (by set_option maxRecDepth 100000 in decide)
    · exact absurd hread (by decide)

/-! ## Reads per checksum -/

theorem filter_success_le_one (calls : List (String × Bool))
    (h : calls.Pairwise fun a b => a.2 = true → md5hex a.1 ≠ md5hex b.1) (c : String) :
    (calls.filter fun x => x.2 && decide (md5hex x.1 = c)).length ≤ 1 := by
  induction calls with
  | nil => simp
  | cons a calls ih =>
    obtain ⟨ha, hrest⟩ := List.pairwise_cons.1 h
    by_cases hp : (a.2 && decide (md5hex a.1 = c)) = true
    · have hnil : (calls.filter fun x => x.2 && decide (md5hex x.1 = c)) = [] := by
        rw [List.filter_eq_nil_iff]
        intro b hb hq
        simp only [Bool.and_eq_true, decide_eq_true_eq] at hp hq
        exact ha b hb hp.1 (hp.2.trans hq.2.symm)
      simp only [List.filter_cons, hp, if_true, hnil, List.length_singleton, le_refl]
    · simp only [List.filter_cons, hp, Bool.false_eq_true, if_false]
      exact ih hrest

/-- Claim C3, as amended. In every run of `Run`, once `ReadFile` has succeeded
for a buildpack it is not called again for a buildpack of the same checksum:
each checksum is read successfully at most once, and when every call succeeds
`ReadFile` is called at most once per checksum. -/
theorem Run_reads_once_after_success {σ : Type} (s : Stage σ) (args : List String) (st : σ) :
    (readFileCalls (s.Run args st).calls).Pairwise
      (fun a b => a.2 = true → md5hex a.1 ≠ md5hex b.1) ∧
    (∀ c, ((readFileCalls (s.Run args st).calls).filter
      fun x => x.2 && decide (md5hex x.1 = c)).length ≤ 1) ∧
    ((∀ x ∈ readFileCalls (s.Run args st).calls, x.2 = true) →
      ∀ c, ((readFileCalls (s.Run args st).calls).filter
        fun x => decide (md5hex x.1 = c)).length ≤ 1) := by
  have hpair : (readFileCalls (s.Run args st).calls).Pairwise
      (fun a b => a.2 = true → md5hex a.1 ≠ md5hex b.1) := by
    rcases Run_readFileCalls s args st with h | ⟨l, st', h⟩
    · rw [h]
      exact List.Pairwise.nil
    · rw [h]
      exact (readBuildpacks_reads s.FS l ∅ st').2
  refine ⟨hpair, filter_success_le_one _ hpair, ?_⟩
  intro hall c
  have heq : ((readFileCalls (s.Run args st).calls).filter
      fun x => decide (md5hex x.1 = c)) =
      ((readFileCalls (s.Run args st).calls).filter
        fun x => x.2 && decide (md5hex x.1 = c)) := by
    apply List.filter_congr
    intro x hx
    rw [hall x hx, Bool.true_and]
  rw [heq]
  exact filter_success_le_one _ hpair c

/-- Claim C3 fails as stated. With the single option `-b ./bp.zip` the list is
`./bp.zip` twice, one distinct checksum; on a filesystem that cannot read the
file, `ReadFile` is called for it twice. -/
theorem Run_reads_unreadable_twice :
    (withOptions (sampleParse ["stage", "app", "-b", "./bp.zip"]).1 {}).Buildpack ::
      (withOptions (sampleParse ["stage", "app", "-b", "./bp.zip"]).1 {}).Buildpacks =
      ["./bp.zip", "./bp.zip"] ∧
    (["./bp.zip", "./bp.zip"].map md5hex).dedup.length = 1 ∧
    readFileCalls ((sampleStage (fun _ => false) 0).Run
      ["stage", "app", "-b", "./bp.zip"] 0).calls = [("./bp.zip", false), ("./bp.zip", false)] ∧
    ¬ ((readFileCalls ((sampleStage (fun _ => false) 0).Run
      ["stage", "app", "-b", "./bp.zip"] 0).calls).filter
        fun x => decide (md5hex x.1 = md5hex "./bp.zip")).length ≤ 1 := by
  refine ⟨by decide, ?_, by decide, ?_⟩
  · simp
  · have h : readFileCalls ((sampleStage (fun _ => false) 0).Run
      ["stage", "app", "-b", "./bp.zip"] 0).calls = [("./bp.zip", false), ("./bp.zip", false)] := by
      decide
    rw [h]
    simp

/-! ## The cache -/

/-- Claim C9. In every run of `Run` that calls `Stager.Stage`, `OpenFile` was
called once, at `./.<name>.cache` for the name of the options, and the
`CacheEmpty` of the configuration handed over is true exactly when the size
`OpenFile` reported is 0. -/
theorem Run_cache_empty {σ : Type} (s : Stage σ) (args : List String) (st : σ)
    (config : StageConfig) (h : config ∈ stageCalls (s.Run args st).calls) :
    ∃ size, openFileCalls (s.Run args st).calls =
        [("./." ++ (s.options args).1.name ++ ".cache", some size)] ∧
      (config.CacheEmpty = true ↔ size = 0) :=
  (Run_stage_config s args st config h).2

/-- The sample command with a cache file of 0 bytes: `Stager.Stage` is called,
the cache was opened at `./.app.cache`, and every configuration handed over has
`CacheEmpty` true. -/
theorem Run_cache_empty_witness :
    stageCalls ((sampleStage (fun _ => true) 0).Run ["stage", "app"] 0).calls ≠ [] ∧
    openFileCalls ((sampleStage (fun _ => true) 0).Run ["stage", "app"] 0).calls =
      [("./.app.cache", some 0)] ∧
    ∀ config ∈ stageCalls ((sampleStage (fun _ => true) 0).Run ["stage", "app"] 0).calls,
      config.CacheEmpty = true := by
  have hopen : openFileCalls ((sampleStage (fun _ => true) 0).Run ["stage", "app"] 0).calls =
      [("./.app.cache", some 0)] := by
    set_option maxRecDepth 100000 in decide
  refine ⟨by set_option maxRecDepth 100000 in decide, hopen, ?_⟩
  intro config hc
  obtain ⟨size, hsize, hiff⟩ :=
    Run_cache_empty (sampleStage (fun _ => true) 0) ["stage", "app"] 0 config hc
  rw [hopen] at hsize
  simp only [List.cons.injEq, Prod.mk.injEq, Option.some.injEq, and_true] at hsize
  exact hiff.2 hsize.2.symm

end Cmd

end Cflocal
